import Mathlib

/-!
Verification development for the lightning-cluster gateway.

The development is a shallow embedding of the orchestration core found in
the repository sources: the value types of `src/lnd.rs`, the `Node` and
`Cluster` logic of `src/cluster.rs`, and the hex/base64 canonicalization
helper `to_hex`.  Remote HTTP backends are modelled by oracles (one
function per client method, returning the observable result of the call),
the redis cache by an association list from string keys to values with an
absolute expiry instant, and the random node choice by an explicit index
oracle.  Rust panics are modelled as an explicit outcome constructor, and
every backend invocation is recorded in a call log so that claims about
which backends are contacted can be stated.
-/

deriving instance DecidableEq for Except

namespace LClust

/-! ## Byte-level encodings: hex::encode and base64::decode, and to_hex -/

/-- The sixteen lowercase hex digit characters produced by hex::encode
(digits then lowercase letters, as Nat.digitChar enumerates them). -/
def hexDigitChars : List Char := (List.range 16).map Nat.digitChar

/-- Character for one hex nibble. -/
def hexDigitChar (n : Nat) : Char := Nat.digitChar (n % 16)

/-- hex::encode on a byte list: two lowercase digits per byte. -/
def hexEncode (bs : List Nat) : String :=
  String.mk (bs.flatMap (fun b => [hexDigitChar (b % 256 / 16), hexDigitChar (b % 16)]))

/-- Value of one character of the standard base64 alphabet. -/
def b64Char (c : Char) : Option Nat :=
  if 'A' ≤ c ∧ c ≤ 'Z' then some (c.toNat - 65)
  else if 'a' ≤ c ∧ c ≤ 'z' then some (c.toNat - 97 + 26)
  else if '0' ≤ c ∧ c ≤ '9' then some (c.toNat - 48 + 52)
  else if c = '+' then some 62
  else if c = '/' then some 63
  else none

/-- Standard base64 decoding over four-character groups with trailing
padding, as performed by base64::decode; `none` is the decode error. -/
def b64Decode : List Char → Option (List Nat)
  | [] => some []
  | c1 :: c2 :: c3 :: c4 :: rest =>
    match b64Char c1, b64Char c2 with
    | some v1, some v2 =>
      if c3 = '=' then
        if c4 = '=' ∧ rest = [] then some [v1 * 4 + v2 / 16] else none
      else
        match b64Char c3 with
        | some v3 =>
          if c4 = '=' then
            if rest = [] then some [v1 * 4 + v2 / 16, v2 % 16 * 16 + v3 / 4] else none
          else
            match b64Char c4 with
            | some v4 =>
              (b64Decode rest).map
                (fun tl => (v1 * 4 + v2 / 16) :: (v2 % 16 * 16 + v3 / 4) :: (v3 % 4 * 64 + v4) :: tl)
            | none => none
        | none => none
    | _, _ => none
  | _ => none

/-- The typed error outcomes of the cluster layer.  The sources use
anyhow errors; each distinct failure path of the sources is mapped to one
constructor here: `upstream` for a propagated backend-client failure,
`base64Err` for a failed base64 decode inside `to_hex`, and `anyhowMsg`
for the ad-hoc message errors built with anyhow in `cluster.rs`. -/
inductive CErr where
  | upstream (msg : String)
  | base64Err (s : String)
  | anyhowMsg (s : String)
deriving DecidableEq, Repr

/-- `to_hex` from `src/cluster.rs` (also duplicated in `src/lnd.rs`):
base64-decode the input and hex-encode the resulting bytes. -/
def toHex (s : String) : Except CErr String :=
  match b64Decode s.data with
  | some bs => Except.ok (hexEncode bs)
  | none => Except.error (CErr.base64Err s)

/-- A string is in canonical hex form when all characters are lowercase
hex digits. -/
def isHexStr (s : String) : Bool :=
  s.data.all (fun c => hexDigitChars.contains c)

/-- Rust u64 parsing (`str::parse::<u64>`): optional leading plus sign,
at least one ascii digit, value within the u64 range. -/
def parseU64 (s : String) : Option Nat :=
  let cs := match s.data with
    | '+' :: rest => rest
    | cs => cs
  if cs ≠ [] ∧ cs.all Char.isDigit then
    let v := cs.foldl (fun acc c => acc * 10 + (c.toNat - 48)) 0
    if v < 2 ^ 64 then some v else none
  else none

/-- Rust `as usize` cast of an i64 (two's-complement wrap into a 64-bit
unsigned value), used on the configured cache expiries. -/
def asUsize (i : Int) : Nat := (i % ((2 : Int) ^ 64)).toNat

/-! ## Value types (from src/lnd.rs and src/cluster.rs) -/

/-- Invoice state as reported by the LND backend (src/lnd.rs). -/
inductive InvoiceState where
  | Open
  | Settled
  | Canceled
  | Accepted
deriving DecidableEq, Repr

/-- Cluster-level invoice state (src/cluster.rs). -/
inductive ClusterInvoiceState where
  | Open
  | Settled
  | Canceled
  | Accepted
deriving DecidableEq, Repr

/-- `InvoiceState::to_cluster` from src/lnd.rs. -/
def InvoiceState.to_cluster : InvoiceState → ClusterInvoiceState
  | .Open => .Open
  | .Settled => .Settled
  | .Canceled => .Canceled
  | .Accepted => .Accepted

/-- `LookupInvoiceResponse` from src/lnd.rs. -/
structure LookupInvoiceResponse where
  memo : String
  r_preimage : String
  r_hash : String
  value : String
  settle_date : String
  payment_request : String
  description_hash : String
  expiry : String
  amt_paid_sat : String
  state : InvoiceState
deriving DecidableEq, Repr

/-- `ClusterLookupInvoice` from src/cluster.rs. -/
structure ClusterLookupInvoice where
  pubkey : String
  memo : String
  r_preimage : String
  r_hash : String
  value : String
  settle_date : String
  payment_request : String
  description_hash : String
  expiry : String
  amt_paid_sat : String
  state : ClusterInvoiceState
deriving DecidableEq, Repr

/-- `LookupInvoiceResponse::to_cluster` from src/lnd.rs: attach the
owning pubkey and translate the state; all other fields are copied
verbatim (no re-encoding happens here). -/
def LookupInvoiceResponse.to_cluster (r : LookupInvoiceResponse) (pubkey : String) :
    ClusterLookupInvoice :=
  { pubkey := pubkey
    memo := r.memo
    r_preimage := r.r_preimage
    r_hash := r.r_hash
    value := r.value
    settle_date := r.settle_date
    payment_request := r.payment_request
    description_hash := r.description_hash
    expiry := r.expiry
    amt_paid_sat := r.amt_paid_sat
    state := r.state.to_cluster }

/-- `ClusterAddInvoice` from src/cluster.rs. -/
structure ClusterAddInvoice where
  pubkey : Option String
  memo : String
  value : Int
  expiry : Int
deriving DecidableEq, Repr

/-- `AddInvoiceLndRequest` from src/lnd.rs: the body actually posted to
the backend (the pubkey of the cluster request is dropped). -/
structure AddInvoiceLndRequest where
  memo : String
  value : Int
  expiry : Int
deriving DecidableEq, Repr

/-- `AddInvoiceResponse` from src/lnd.rs. -/
structure AddInvoiceResponse where
  r_hash : String
  payment_request : String
  add_index : String
  payment_addr : String
deriving DecidableEq, Repr

/-- `NewAddressResponse` from src/lnd.rs. -/
structure NewAddressResponse where
  address : String
deriving DecidableEq, Repr

/-- `Outpoint` from src/lnd.rs. -/
structure Outpoint where
  txid_bytes : String
  txid_str : String
  output_index : Nat
deriving DecidableEq, Repr

/-- `Utxo` from src/lnd.rs (amounts arrive as decimal strings). -/
structure Utxo where
  address : String
  amount_sat : String
  confirmations : String
  outpoint : Outpoint
  pk_script : String
deriving DecidableEq, Repr

/-- `ListUnspentResponse` from src/lnd.rs. -/
structure ListUnspentResponse where
  utxos : List Utxo
deriving DecidableEq, Repr

/-- `ClusterUtxo` from src/cluster.rs. -/
structure ClusterUtxo where
  pubkey : String
  address : String
  amount : Nat
  confirmations : Nat
deriving DecidableEq, Repr

/-- `ClusterUtxos` from src/cluster.rs. -/
structure ClusterUtxos where
  utxos : List ClusterUtxo
deriving DecidableEq, Repr

/-- `Hop` from src/lnd.rs. -/
structure Hop where
  chan_id : String
  chan_capacity : String
  amt_to_forward : String
  fee : String
  expiry : Int
  amt_to_forward_msat : String
  fee_msat : String
  pub_key : String
  metadata : String
deriving DecidableEq, Repr

/-- `Route` from src/lnd.rs. -/
structure Route where
  total_time_lock : Nat
  total_fees : String
  total_amt : String
  hops : List Hop
deriving DecidableEq, Repr

/-- `FeeLimit` from src/lnd.rs. -/
structure FeeLimit where
  fixed : String
deriving DecidableEq, Repr

/-- `LndSendPaymentSyncReq` from src/lnd.rs. -/
structure LndSendPaymentSyncReq where
  payment_request : String
  amt : String
  fee_limit : FeeLimit
  allow_self_payment : Bool
deriving DecidableEq, Repr

/-- `LndSendPaymentSyncRes` from src/lnd.rs. -/
structure LndSendPaymentSyncRes where
  payment_error : Option String
  payment_preimage : Option String
  payment_route : Option Route
  payment_hash : Option String
deriving DecidableEq, Repr

/-- `ClusterPayPaymentRequestRes` from src/cluster.rs. -/
structure ClusterPayPaymentRequestRes where
  pubkey : String
  payment_error : Option String
  payment_preimage : Option String
  payment_route : Option Route
  payment_hash : Option String
deriving DecidableEq, Repr

/-- `LndSendPaymentSyncRes::to_cluster` from src/lnd.rs. -/
def LndSendPaymentSyncRes.to_cluster (r : LndSendPaymentSyncRes) (pubkey : String) :
    ClusterPayPaymentRequestRes :=
  { pubkey := pubkey
    payment_error := r.payment_error
    payment_preimage := r.payment_preimage
    payment_route := r.payment_route
    payment_hash := r.payment_hash }

/-! ## Outcomes, backend oracles, nodes -/

/-- Outcome of running a fallible piece of the Rust sources: a value, a
recoverable error, or a process panic. -/
inductive RunResult (α : Type) where
  | ok (a : α)
  | err (e : CErr)
  | panics (msg : String)
deriving DecidableEq, Repr

/-- Map over the value of an outcome. -/
def RunResult.map (f : α → β) : RunResult α → RunResult β
  | .ok a => .ok (f a)
  | .err e => .err e
  | .panics m => .panics m

/-- Whether an outcome is a success. -/
def RunResult.isOk : RunResult α → Bool
  | .ok _ => true
  | _ => false

/-- A record of one backend invocation, tagged with the pubkey of the
node whose client was used. -/
inductive BCall where
  | lookup (pubkey r_hash : String)
  | addInv (pubkey : String)
  | newAddr (pubkey : String)
  | listUnspentCall (pubkey : String)
  | sendPay (pubkey : String)
deriving DecidableEq, Repr

/-- Oracle model of `LndClient` (src/lnd.rs): the HTTP transport and
credentials are external, so each client method is modelled by the
observable result of calling it; an `Except.error` is a failed request
or an unparseable response. -/
structure LndClient where
  lookupInvoice : String → Except String LookupInvoiceResponse
  addInvoice : AddInvoiceLndRequest → Except String AddInvoiceResponse
  newAddress : Except String NewAddressResponse
  listUnspent : Except String ListUnspentResponse
  sendPaymentSync : LndSendPaymentSyncReq → Except String LndSendPaymentSyncRes

/-- `LndClient::add_invoice` builds the posted body from the cluster
request, dropping its pubkey field (src/lnd.rs). -/
def LndClient.addInvoiceCluster (c : LndClient) (req : ClusterAddInvoice) :
    Except String AddInvoiceResponse :=
  c.addInvoice { memo := req.memo, value := req.value, expiry := req.expiry }

/-- `NodeClient` from src/cluster.rs. -/
inductive NodeClient where
  | lnd (client : LndClient)
  | cLightning
  | eclair
  | other

/-- Whether a client is the supported LND dialect. -/
def NodeClient.isLnd : NodeClient → Bool
  | .lnd _ => true
  | _ => false

/-- `NodeNetwork` from src/cluster.rs. -/
inductive NodeNetwork where
  | mainnet
  | testnet

/-- `NodeLightningImpl` from src/cluster.rs. -/
inductive NodeLightningImpl where
  | lnd
  | cLightning
  | eclair
  | other

/-- `Node` from src/cluster.rs. -/
structure Node where
  pubkey : String
  ip : String
  port : String
  network : NodeNetwork
  lightning_impl : NodeLightningImpl
  client : NodeClient

/-- Panic message of the non-LND arms in src/cluster.rs. -/
def onlyLndMsg : String := "We only support LND nodes at this time."

/-- Panic message of Option unwrap on a missing value. -/
def unwrapNoneMsg : String := "called Option::unwrap() on a None value"

/-- Panic message of Result unwrap on an error value. -/
def parseUnwrapMsg : String := "called Result::unwrap() on an Err value"

/-- The anyhow message produced when every fanned-out lookup fails
(src/cluster.rs line 291); this is the AllNodesFailed error of the spec
taxonomy. -/
def noNodesFoundMsg : String := "No nodes found this invoice."

/-- The anyhow message produced when an explicit pubkey matches no
configured node (src/cluster.rs lines 384 and 445); this is the
NodeNotFound error of the spec taxonomy. -/
def nodeNotFoundMsg : String := "Node not found with provided pubkey"

/-- Panic message of the FromRedisValue implementations on a cache value
that does not hold the expected shape. -/
def invalidRedisMsg : String := "Invalid redis value"

/-- `Node::lookup_invoice` from src/cluster.rs: call the LND client and
normalize the response shape; the binary fields are NOT re-encoded here.
A non-LND client panics. -/
def Node.lookupInvoice (n : Node) (r_hash : String) :
    RunResult ClusterLookupInvoice × List BCall :=
  match n.client with
  | .lnd client =>
    match client.lookupInvoice r_hash with
    | .ok resp => (.ok (resp.to_cluster n.pubkey), [.lookup n.pubkey r_hash])
    | .error e => (.err (.upstream e), [.lookup n.pubkey r_hash])
  | _ => (.panics onlyLndMsg, [])

/-- `Node::add_invoice` from src/cluster.rs: call the LND client, then
re-encode `r_hash` and `payment_addr` with `to_hex` before returning.
A non-LND client panics. -/
def Node.addInvoice (n : Node) (req : ClusterAddInvoice) :
    RunResult AddInvoiceResponse × List BCall :=
  match n.client with
  | .lnd client =>
    match client.addInvoiceCluster req with
    | .ok invoice =>
      match toHex invoice.r_hash with
      | .error e => (.err e, [.addInv n.pubkey])
      | .ok hh =>
        match toHex invoice.payment_addr with
        | .error e => (.err e, [.addInv n.pubkey])
        | .ok pa => (.ok { invoice with r_hash := hh, payment_addr := pa }, [.addInv n.pubkey])
    | .error e => (.err (.upstream e), [.addInv n.pubkey])
  | _ => (.panics onlyLndMsg, [])

/-- `Node::next_address` from src/cluster.rs. -/
def Node.nextAddress (n : Node) : RunResult String × List BCall :=
  match n.client with
  | .lnd client =>
    match client.newAddress with
    | .ok resp => (.ok resp.address, [.newAddr n.pubkey])
    | .error e => (.err (.upstream e), [.newAddr n.pubkey])
  | _ => (.panics onlyLndMsg, [])

/-- One UTXO of `Node::list_utxos` (src/cluster.rs): the amount and
confirmation strings are parsed with unwrap, panicking on a bad parse. -/
def utxoToCluster (pk : String) (u : Utxo) : RunResult ClusterUtxo :=
  match parseU64 u.amount_sat with
  | none => .panics parseUnwrapMsg
  | some a =>
    match parseU64 u.confirmations with
    | none => .panics parseUnwrapMsg
    | some cf => .ok { pubkey := pk, address := u.address, amount := a, confirmations := cf }

/-- The mapped collection of `Node::list_utxos`, in backend order. -/
def utxosToCluster (pk : String) : List Utxo → RunResult (List ClusterUtxo)
  | [] => .ok []
  | u :: rest =>
    match utxoToCluster pk u with
    | .ok cu => (utxosToCluster pk rest).map (fun l => cu :: l)
    | .err e => .err e
    | .panics m => .panics m

/-- `Node::list_utxos` from src/cluster.rs. -/
def Node.listUtxos (n : Node) : RunResult ClusterUtxos × List BCall :=
  match n.client with
  | .lnd client =>
    match client.listUnspent with
    | .ok resp =>
      ((utxosToCluster n.pubkey resp.utxos).map (fun l => ⟨l⟩), [.listUnspentCall n.pubkey])
    | .error e => (.err (.upstream e), [.listUnspentCall n.pubkey])
  | _ => (.panics onlyLndMsg, [])

/-! ## The redis result cache

The redis connection is modelled as an association list from string
keys to stored values with an absolute expiry instant.  Serialization
of a value to its JSON string and the later deserialization are
modelled as the identity on the value (serde round trips are value
preserving for these types); the stored shape is remembered so that a
read expecting a different shape can reproduce the panic of the
FromRedisValue implementations.  `set_ex` failures of the connection
are modelled by a success flag per write: a failed write leaves the
store unchanged. -/

/-- Shape-tagged stored cache value. -/
inductive CacheVal where
  | inv (v : ClusterLookupInvoice)
  | str (s : String)
  | utxos (u : ClusterUtxos)
deriving DecidableEq, Repr

/-- The cache store: key, value, absolute expiry instant. -/
def Cache := List (String × CacheVal × Nat)

instance : DecidableEq Cache := by unfold Cache; infer_instance

/-- Read a key at an instant: the value if present and not expired. -/
def cacheLive (c : Cache) (now : Nat) (k : String) : Option CacheVal :=
  match c.find? (fun e => e.1 == k) with
  | some e => if now < e.2.2 then some e.2.1 else none
  | none => none

/-- `set_ex`: insert or overwrite a key with a fresh expiry. -/
def cacheSet (c : Cache) (k : String) (v : CacheVal) (expiry : Nat) : Cache :=
  (k, v, expiry) :: c.filter (fun e => !(e.1 == k))

/-- Consume one write-success flag; an exhausted flag list means the
writes succeed. -/
def takeFlag : List Bool → Bool × List Bool
  | [] => (true, [])
  | b :: rest => (b, rest)

/-! ## The Cluster -/

/-- `Cluster` from src/cluster.rs: the node list and the configured
per-domain expiries.  The redis connection is passed as explicit state
to each operation. -/
structure Cluster where
  nodes : List Node
  invExpSec : Int
  addrExpSec : Int
  utxoExpSec : Int

/-- `SliceRandom::choose`: `none` exactly when the list is empty,
otherwise some element chosen by the random oracle index. -/
def chooseIdx (l : List α) (idx : Nat) : Option α := l.get? (idx % l.length)

/-- The canonicalization step of `Cluster::lookup_invoice`
(src/cluster.rs lines 259-263 and 294-298): re-encode `r_hash` and
`r_preimage` with `to_hex`, propagating a decode failure. -/
def canonInvoice (inv : ClusterLookupInvoice) : Except CErr ClusterLookupInvoice :=
  match toHex inv.r_hash with
  | .error e => .error e
  | .ok hh =>
    match toHex inv.r_preimage with
    | .error e => .error e
    | .ok hp => .ok { inv with r_hash := hh, r_preimage := hp }

/-- The `join_all` of the lookup fan-out (src/cluster.rs lines 276-288):
the per-node futures are polled in node order, so the first node whose
body panics (a non-LND client) aborts the join after the earlier calls
were already issued; otherwise every node is called and the list of
per-node results is gathered. -/
def joinLookup (r_hash : String) : List Node →
    (String ⊕ List (Except CErr ClusterLookupInvoice)) × List BCall
  | [] => (.inr [], [])
  | n :: rest =>
    match n.lookupInvoice r_hash with
    | (.panics m, cs) => (.inl m, cs)
    | (.ok v, cs) =>
      match joinLookup r_hash rest with
      | (.inl m, cs2) => (.inl m, cs ++ cs2)
      | (.inr l, cs2) => (.inr (.ok v :: l), cs ++ cs2)
    | (.err e, cs) =>
      match joinLookup r_hash rest with
      | (.inl m, cs2) => (.inl m, cs ++ cs2)
      | (.inr l, cs2) => (.inr (.error e :: l), cs ++ cs2)

/-- `find_map(|(_index, result)| result.ok())`: the first success in
iteration order. -/
def firstOk (l : List (Except CErr α)) : Option α :=
  l.findSome? (fun r => match r with | .ok a => some a | .error _ => none)

/-- The per-node outcome of one fanned-out lookup. -/
def nodeLookupRes (n : Node) (r_hash : String) : RunResult ClusterLookupInvoice :=
  (n.lookupInvoice r_hash).1

/-- First success among a list of outcomes, in order. -/
def firstSuccess (l : List (RunResult α)) : Option α :=
  l.findSome? (fun r => match r with | .ok a => some a | _ => none)

/-- `Cluster::lookup_invoice` from src/cluster.rs.  `now` is the clock
instant, `setOk` tells whether the (ignored) `set_ex` write succeeds.
Returns the outcome, the cache after the call, and the backend calls
issued. -/
def Cluster.lookupInvoice (c : Cluster) (cache : Cache) (now : Nat) (r_hash : String)
    (pubkey : Option String) (setOk : Bool) :
    RunResult ClusterLookupInvoice × Cache × List BCall :=
  match cacheLive cache now r_hash with
  | some (.inv invoice) => (.ok invoice, cache, [])
  | some _ => (.panics invalidRedisMsg, cache, [])
  | none =>
    match pubkey with
    | some pk =>
      match c.nodes.find? (fun n => n.pubkey == pk) with
      | none => (.panics unwrapNoneMsg, cache, [])
      | some node =>
        match node.lookupInvoice r_hash with
        | (.ok invoice, cs) =>
          match canonInvoice invoice with
          | .error e => (.err e, cache, cs)
          | .ok hexed =>
            let cache2 := if setOk then
                cacheSet cache r_hash (.inv hexed) (now + asUsize c.invExpSec)
              else cache
            (.ok hexed, cache2, cs)
        | (.err e, cs) => (.err e, cache, cs)
        | (.panics m, cs) => (.panics m, cache, cs)
    | none =>
      match joinLookup r_hash c.nodes with
      | (.inl m, cs) => (.panics m, cache, cs)
      | (.inr results, cs) =>
        match firstOk results with
        | none => (.err (.anyhowMsg noNodesFoundMsg), cache, cs)
        | some success =>
          match canonInvoice success with
          | .error e => (.err e, cache, cs)
          | .ok hexed =>
            let cache2 := if setOk then
                cacheSet cache r_hash (.inv hexed) (now + asUsize c.invExpSec)
              else cache
            (.ok hexed, cache2, cs)

/-- `Cluster::add_invoice` from src/cluster.rs: explicit pubkey is
resolved with find + unwrap (panicking when absent); no pubkey picks a
random node with choose + unwrap (panicking when the list is empty). -/
def Cluster.addInvoice (c : Cluster) (req : ClusterAddInvoice) (pubkey : Option String)
    (idx : Nat) : RunResult AddInvoiceResponse × List BCall :=
  match pubkey with
  | some pk =>
    match c.nodes.find? (fun n => n.pubkey == pk) with
    | none => (.panics unwrapNoneMsg, [])
    | some node => node.addInvoice req
  | none =>
    match chooseIdx c.nodes idx with
    | none => (.panics unwrapNoneMsg, [])
    | some node => node.addInvoice req

/-- `Cluster::next_address` from src/cluster.rs: resolve the node (find
+ unwrap, or random choose + unwrap), allocate a fresh address, then
cache the address to owner-pubkey mapping, ignoring the write result. -/
def Cluster.nextAddress (c : Cluster) (cache : Cache) (now : Nat) (pubkey : Option String)
    (idx : Nat) (setOk : Bool) : RunResult String × Cache × List BCall :=
  match pubkey with
  | some pk =>
    match c.nodes.find? (fun n => n.pubkey == pk) with
    | none => (.panics unwrapNoneMsg, cache, [])
    | some node =>
      match node.nextAddress with
      | (.ok addr, cs) =>
        let cache2 := if setOk then
            cacheSet cache addr (.str node.pubkey) (now + asUsize c.addrExpSec)
          else cache
        (.ok addr, cache2, cs)
      | (.err e, cs) => (.err e, cache, cs)
      | (.panics m, cs) => (.panics m, cache, cs)
  | none =>
    match chooseIdx c.nodes idx with
    | none => (.panics unwrapNoneMsg, cache, [])
    | some node =>
      match node.nextAddress with
      | (.ok addr, cs) =>
        let cache2 := if setOk then
            cacheSet cache addr (.str node.pubkey) (now + asUsize c.addrExpSec)
          else cache
        (.ok addr, cache2, cs)
      | (.err e, cs) => (.err e, cache, cs)
      | (.panics m, cs) => (.panics m, cache, cs)

/-- The cache key of one node in the UTXO domain. -/
def utxoKey (n : Node) : String := "utxos:" ++ n.pubkey

/-- The aggregate loop of `Cluster::list_utxos(None)` (src/cluster.rs
lines 403-428): per node in iteration order, consult the cache, fetch
and cache on a miss, extend the accumulated list; a fetch failure aborts
the loop with the writes already performed kept in the cache. -/
def utxosLoop (now ttl : Nat) : List Node → Cache → List Bool →
    RunResult (List ClusterUtxo) × Cache × List BCall
  | [], cache, _ => (.ok [], cache, [])
  | n :: rest, cache, flags =>
    match cacheLive cache now (utxoKey n) with
    | some (.utxos u) =>
      match utxosLoop now ttl rest cache flags with
      | (r, cache2, cs) => (r.map (fun l => u.utxos ++ l), cache2, cs)
    | some _ => (.panics invalidRedisMsg, cache, [])
    | none =>
      match n.listUtxos with
      | (.ok u, cs) =>
        match takeFlag flags with
        | (flag, flags2) =>
          let cache1 := if flag then cacheSet cache (utxoKey n) (.utxos u) (now + ttl) else cache
          match utxosLoop now ttl rest cache1 flags2 with
          | (r, cache2, cs2) => (r.map (fun l => u.utxos ++ l), cache2, cs ++ cs2)
      | (.err e, cs) => (.err e, cache, cs)
      | (.panics m, cs) => (.panics m, cache, cs)

/-- `Cluster::list_utxos` from src/cluster.rs: explicit pubkey is
resolved with find + ok_or_else (a typed error when absent) and served
through the per-node cache; no pubkey aggregates every node in
iteration order. -/
def Cluster.listUtxos (c : Cluster) (cache : Cache) (now : Nat) (pubkey : Option String)
    (setOks : List Bool) : RunResult ClusterUtxos × Cache × List BCall :=
  match pubkey with
  | some pk =>
    match c.nodes.find? (fun n => n.pubkey == pk) with
    | none => (.err (.anyhowMsg nodeNotFoundMsg), cache, [])
    | some node =>
      match cacheLive cache now (utxoKey node) with
      | some (.utxos u) => (.ok u, cache, [])
      | some _ => (.panics invalidRedisMsg, cache, [])
      | none =>
        match node.listUtxos with
        | (.ok u, cs) =>
          let cache2 := if (takeFlag setOks).1 then
              cacheSet cache (utxoKey node) (.utxos u) (now + asUsize c.utxoExpSec)
            else cache
          (.ok u, cache2, cs)
        | (.err e, cs) => (.err e, cache, cs)
        | (.panics m, cs) => (.panics m, cache, cs)
  | none =>
    match utxosLoop now (asUsize c.utxoExpSec) c.nodes cache setOks with
    | (.ok l, cache2, cs) => (.ok ⟨l⟩, cache2, cs)
    | (.err e, cache2, cs) => (.err e, cache2, cs)
    | (.panics m, cache2, cs) => (.panics m, cache2, cs)

/-- The shared dispatch body of `Cluster::pay_invoice` (src/cluster.rs
lines 447-487; the two selection arms of the source contain the same
dispatch code verbatim): build the send request and call the LND client,
panicking on a non-LND client. -/
def payDispatch (node : Node) (amount : Nat) (payment_request : String) (max_fee : Int) :
    RunResult ClusterPayPaymentRequestRes × List BCall :=
  match node.client with
  | .lnd client =>
    let req : LndSendPaymentSyncReq :=
      { payment_request := payment_request
        amt := toString amount
        fee_limit := { fixed := toString max_fee }
        allow_self_payment := false }
    match client.sendPaymentSync req with
    | .ok res => (.ok (res.to_cluster node.pubkey), [.sendPay node.pubkey])
    | .error e => (.err (.upstream e), [.sendPay node.pubkey])
  | _ => (.panics onlyLndMsg, [])

/-- `Cluster::pay_invoice` from src/cluster.rs: explicit pubkey is
resolved with find + ok_or_else (a typed error when absent); no pubkey
picks a random node with choose + unwrap (panicking when empty). -/
def Cluster.payInvoice (c : Cluster) (amount : Nat) (payment_request : String)
    (max_fee : Int) (pubkey : Option String) (idx : Nat) :
    RunResult ClusterPayPaymentRequestRes × List BCall :=
  match pubkey with
  | some pk =>
    match c.nodes.find? (fun n => n.pubkey == pk) with
    | none => (.err (.anyhowMsg nodeNotFoundMsg), [])
    | some node => payDispatch node amount payment_request max_fee
  | none =>
    match chooseIdx c.nodes idx with
    | none => (.panics unwrapNoneMsg, [])
    | some node => payDispatch node amount payment_request max_fee

/-! ## Concrete fixtures used by the witnesses and counterexamples -/

/-- A client whose every call fails upstream. -/
def failClient : LndClient :=
  { lookupInvoice := fun _ => .error "connection refused"
    addInvoice := fun _ => .error "connection refused"
    newAddress := .error "connection refused"
    listUnspent := .error "connection refused"
    sendPaymentSync := fun _ => .error "connection refused" }

/-- A client answering every invoice lookup with a fixed response. -/
def lookupClient (resp : LookupInvoiceResponse) : LndClient :=
  { failClient with lookupInvoice := fun _ => .ok resp }

/-- A client answering the UTXO listing with a fixed response. -/
def unspentClient (resp : ListUnspentResponse) : LndClient :=
  { failClient with listUnspent := .ok resp }

/-- A test node around a given client. -/
def mkNode (pk : String) (cl : NodeClient) : Node :=
  { pubkey := pk
    ip := "127.0.0.1"
    port := "8080"
    network := .testnet
    lightning_impl := .lnd
    client := cl }

/-- A backend lookup response whose binary fields are in base64 (the
encoding quirk the sources re-encode): both decode to three zero
bytes. -/
def respB64 : LookupInvoiceResponse :=
  { memo := "m"
    r_preimage := "AAAA"
    r_hash := "AAAA"
    value := "1000"
    settle_date := "0"
    payment_request := "lnbc1"
    description_hash := ""
    expiry := "3600"
    amt_paid_sat := "0"
    state := .Open }

/-- A backend lookup response whose binary fields decode to bytes
255 255 255; the base64 text itself contains slashes, so it is visibly
not hex. -/
def respSlash : LookupInvoiceResponse :=
  { respB64 with r_hash := "////", r_preimage := "////" }

/-- A cluster of one healthy node that owns every looked-up invoice. -/
def clusterB64 : Cluster :=
  { nodes := [mkNode "n1" (.lnd (lookupClient respB64))]
    invExpSec := 60
    addrExpSec := 60
    utxoExpSec := 60 }

/-- A cluster of one node whose every backend call fails. -/
def clusterFail : Cluster :=
  { nodes := [mkNode "n1" (.lnd failClient)]
    invExpSec := 60
    addrExpSec := 60
    utxoExpSec := 60 }

/-- A cluster with no configured nodes. -/
def clusterEmpty : Cluster :=
  { nodes := []
    invExpSec := 60
    addrExpSec := 60
    utxoExpSec := 60 }

/-! ## Cache lemmas -/

theorem find?_filter_ne (l : List (String × CacheVal × Nat)) (k k' : String) (h : k' ≠ k) :
    List.find? (fun e => e.1 == k') (List.filter (fun e => !(e.1 == k)) l)
      = List.find? (fun e => e.1 == k') l := by
  induction l with
  | nil => rfl
  | cons a l ih =>
    rcases eq_or_ne a.1 k with hk | hk
    · have h1 : (a.1 == k) = true := by simp [hk]
      have h2 : (a.1 == k') = false := by simp [hk]; exact fun hh => h hh.symm
      simp [List.filter_cons, h1, List.find?_cons, h2, ih]
    · have h1 : (a.1 == k) = false := by simp [hk]
      cases h2 : (a.1 == k') <;>
        simp [List.filter_cons, h1, List.find?_cons, h2, ih]

theorem cacheLive_cacheSet (c : Cache) (k : String) (v : CacheVal) (e : Nat)
    (now : Nat) (k' : String) :
    cacheLive (cacheSet c k v e) now k'
      = if k' = k then (if now < e then some v else none) else cacheLive c now k' := by
  rcases eq_or_ne k' k with hk | hk
  · subst hk
    simp [cacheLive, cacheSet, List.find?_cons]
  · simp only [cacheLive, cacheSet, List.find?_cons]
    have h2 : (k == k') = false := by simp; exact fun hh => hk hh.symm
    simp [h2, find?_filter_ne _ _ _ hk, hk]

/-! ## Fan-out lemmas -/

theorem joinLookup_lnd (r : String) (nodes : List Node)
    (hl : ∀ n ∈ nodes, n.client.isLnd = true) :
    ∃ results, joinLookup r nodes = (.inr results, nodes.map (fun n => BCall.lookup n.pubkey r))
      ∧ firstOk results = firstSuccess (nodes.map (fun n => nodeLookupRes n r)) := by
  induction nodes with
  | nil => exact ⟨[], rfl, rfl⟩
  | cons n rest ih =>
    obtain ⟨results, hj, hfo⟩ := ih (fun m hm => hl m (List.mem_cons_of_mem _ hm))
    have hn := hl n (List.mem_cons_self _ _)
    cases hc : n.client with
    | lnd client =>
      cases hr : client.lookupInvoice r with
      | ok resp =>
        refine ⟨.ok (resp.to_cluster n.pubkey) :: results, ?_, ?_⟩
        · simp [joinLookup, Node.lookupInvoice, hc, hr, hj]
        · simp [firstOk, firstSuccess, List.findSome?_cons, nodeLookupRes,
            Node.lookupInvoice, hc, hr]
      | error e =>
        refine ⟨.error (.upstream e) :: results, ?_, ?_⟩
        · simp [joinLookup, Node.lookupInvoice, hc, hr, hj]
        · simpa [firstOk, firstSuccess, List.findSome?_cons, nodeLookupRes,
            Node.lookupInvoice, hc, hr] using hfo
    | cLightning => rw [hc] at hn; simp [NodeClient.isLnd] at hn
    | eclair => rw [hc] at hn; simp [NodeClient.isLnd] at hn
    | other => rw [hc] at hn; simp [NodeClient.isLnd] at hn

theorem firstSuccess_eq_none (l : List (RunResult α)) (h : ∀ r ∈ l, r.isOk = false) :
    firstSuccess l = none := by
  induction l with
  | nil => rfl
  | cons r rest ih =>
    have hr := h r (List.mem_cons_self _ _)
    have ht := ih (fun x hx => h x (List.mem_cons_of_mem _ hx))
    cases r with
    | ok a => simp [RunResult.isOk] at hr
    | err e => simpa [firstSuccess, List.findSome?_cons] using ht
    | panics m => simpa [firstSuccess, List.findSome?_cons] using ht

/-! ## Claim C1 -/

/-- C1: on an invoice-lookup cache miss with no owner pubkey, the
Cluster issues a lookup to every configured node (the backend call log
lists every node, in iteration order, reflecting the jointly awaited
fan-out) and, when at least one call succeeds, returns the
canonicalization of the first successful result in node iteration order
and caches it under the invoice-domain expiry. -/
theorem claim_C1_fanout_first_success (c : Cluster) (cache : Cache) (now : Nat)
    (r_hash : String) (inv : ClusterLookupInvoice)
    (hlnd : ∀ n ∈ c.nodes, n.client.isLnd = true)
    (hmiss : cacheLive cache now r_hash = none)
    (hfirst : firstSuccess (c.nodes.map (fun n => nodeLookupRes n r_hash)) = some inv) :
    (Cluster.lookupInvoice c cache now r_hash none true).2.2
        = c.nodes.map (fun n => BCall.lookup n.pubkey r_hash)
    ∧ (Cluster.lookupInvoice c cache now r_hash none true).1
        = (match canonInvoice inv with
            | .ok hexed => RunResult.ok hexed
            | .error e => RunResult.err e)
    ∧ (∀ hexed, canonInvoice inv = .ok hexed →
        (Cluster.lookupInvoice c cache now r_hash none true).2.1
          = cacheSet cache r_hash (.inv hexed) (now + asUsize c.invExpSec)) := by
  obtain ⟨results, hj, hfo⟩ := joinLookup_lnd r_hash c.nodes hlnd
  have hfo' : firstOk results = some inv := by rw [hfo, hfirst]
  refine ⟨?_, ?_, ?_⟩
  · simp only [Cluster.lookupInvoice, hmiss, hj, hfo']
    cases hc : canonInvoice inv <;> simp
  · simp only [Cluster.lookupInvoice, hmiss, hj, hfo']
    cases hc : canonInvoice inv <;> simp
  · intro hexed hh
    simp only [Cluster.lookupInvoice, hmiss, hj, hfo', hh]
    simp

/-- The cluster-level invoice produced by the healthy test node. -/
def invB64 : ClusterLookupInvoice := respB64.to_cluster "n1"

/-- Witness for C1 at a concrete one-node cluster. -/
theorem claim_C1_witness :
    (Cluster.lookupInvoice clusterB64 [] 0 "AAAA" none true).2.2
        = clusterB64.nodes.map (fun n => BCall.lookup n.pubkey "AAAA")
    ∧ (Cluster.lookupInvoice clusterB64 [] 0 "AAAA" none true).1
        = (match canonInvoice invB64 with
            | .ok hexed => RunResult.ok hexed
            | .error e => RunResult.err e)
    ∧ (∀ hexed, canonInvoice invB64 = .ok hexed →
        (Cluster.lookupInvoice clusterB64 [] 0 "AAAA" none true).2.1
          = cacheSet [] "AAAA" (.inv hexed) (0 + asUsize clusterB64.invExpSec)) :=
  claim_C1_fanout_first_success clusterB64 [] 0 "AAAA" invB64 (by decide) rfl rfl

/-! ## Claim C2 -/

/-- C2: when the fanned-out lookup finds the hash on no node (every
per-node call fails), the whole lookup fails with the AllNodesFailed
error of the spec taxonomy (the anyhow message of src/cluster.rs line
291), the cache is left exactly as it was (no negative caching), and
every node was still called. -/
theorem claim_C2_all_nodes_failed (c : Cluster) (cache : Cache) (now : Nat)
    (r_hash : String) (setOk : Bool)
    (hlnd : ∀ n ∈ c.nodes, n.client.isLnd = true)
    (hmiss : cacheLive cache now r_hash = none)
    (hfail : ∀ n ∈ c.nodes, (nodeLookupRes n r_hash).isOk = false) :
    Cluster.lookupInvoice c cache now r_hash none setOk
      = (.err (.anyhowMsg noNodesFoundMsg), cache,
          c.nodes.map (fun n => BCall.lookup n.pubkey r_hash)) := by
  obtain ⟨results, hj, hfo⟩ := joinLookup_lnd r_hash c.nodes hlnd
  have hnone : firstOk results = none := by
    rw [hfo]
    apply firstSuccess_eq_none
    intro r hr
    rw [List.mem_map] at hr
    obtain ⟨n, hn, rfl⟩ := hr
    exact hfail n hn
  simp only [Cluster.lookupInvoice, hmiss, hj, hnone]

/-- Witness for C2 at a concrete cluster whose node always fails. -/
theorem claim_C2_witness :
    Cluster.lookupInvoice clusterFail [] 0 "deadbeef" none true
      = (.err (.anyhowMsg noNodesFoundMsg), [],
          clusterFail.nodes.map (fun n => BCall.lookup n.pubkey "deadbeef")) :=
  claim_C2_all_nodes_failed clusterFail [] 0 "deadbeef" true (by decide) rfl (by decide)

/-! ## Claim C5 -/

/-- A live invoice cache entry is returned as is, with no node call and
no cache mutation, whatever the pubkey argument. -/
theorem lookup_hit (c : Cluster) (cache : Cache) (now : Nat) (h : String)
    (inv : ClusterLookupInvoice) (pk : Option String) (setOk : Bool)
    (hhit : cacheLive cache now h = some (.inv inv)) :
    Cluster.lookupInvoice c cache now h pk setOk = (.ok inv, cache, []) := by
  simp only [Cluster.lookupInvoice, hhit]

/-- On a miss, a successful lookup (either pubkey mode, with the cache
write succeeding) leaves the cache extended at exactly the
caller-supplied key with the returned invoice and the invoice-domain
expiry. -/
theorem lookup_ok_cache (c : Cluster) (cache : Cache) (now : Nat) (h : String)
    (pk : Option String) (v : ClusterLookupInvoice) (cache' : Cache) (cs : List BCall)
    (hmiss : cacheLive cache now h = none)
    (heq : Cluster.lookupInvoice c cache now h pk true = (.ok v, cache', cs)) :
    cache' = cacheSet cache h (.inv v) (now + asUsize c.invExpSec) := by
  cases pk with
  | some p =>
    cases hf : List.find? (fun n => n.pubkey == p) c.nodes with
    | none =>
      rw [show Cluster.lookupInvoice c cache now h (some p) true
            = (.panics unwrapNoneMsg, cache, []) by
          simp only [Cluster.lookupInvoice, hmiss, hf]] at heq
      simp at heq
    | some node =>
      rcases hn : node.lookupInvoice h with ⟨r, cs0⟩
      cases r with
      | ok invoice =>
        cases hcv : canonInvoice invoice with
        | error e =>
          rw [show Cluster.lookupInvoice c cache now h (some p) true = (.err e, cache, cs0) by
              simp only [Cluster.lookupInvoice, hmiss, hf, hn, hcv]] at heq
          simp at heq
        | ok hexed =>
          rw [show Cluster.lookupInvoice c cache now h (some p) true
                = (.ok hexed, cacheSet cache h (.inv hexed) (now + asUsize c.invExpSec), cs0) by
              simp only [Cluster.lookupInvoice, hmiss, hf, hn, hcv]
              simp] at heq
          simp only [Prod.mk.injEq, RunResult.ok.injEq] at heq
          obtain ⟨h1, h2, h3⟩ := heq
          rw [← h2, ← h1]
      | err e =>
        rw [show Cluster.lookupInvoice c cache now h (some p) true = (.err e, cache, cs0) by
            simp only [Cluster.lookupInvoice, hmiss, hf, hn]] at heq
        simp at heq
      | panics m =>
        rw [show Cluster.lookupInvoice c cache now h (some p) true = (.panics m, cache, cs0) by
            simp only [Cluster.lookupInvoice, hmiss, hf, hn]] at heq
        simp at heq
  | none =>
    rcases hj : joinLookup h c.nodes with ⟨s, cs0⟩
    cases s with
    | inl m =>
      rw [show Cluster.lookupInvoice c cache now h none true = (.panics m, cache, cs0) by
          simp only [Cluster.lookupInvoice, hmiss, hj]] at heq
      simp at heq
    | inr results =>
      cases ho : firstOk results with
      | none =>
        rw [show Cluster.lookupInvoice c cache now h none true
              = (.err (.anyhowMsg noNodesFoundMsg), cache, cs0) by
            simp only [Cluster.lookupInvoice, hmiss, hj, ho]] at heq
        simp at heq
      | some success =>
        cases hcv : canonInvoice success with
        | error e =>
          rw [show Cluster.lookupInvoice c cache now h none true = (.err e, cache, cs0) by
              simp only [Cluster.lookupInvoice, hmiss, hj, ho, hcv]] at heq
          simp at heq
        | ok hexed =>
          rw [show Cluster.lookupInvoice c cache now h none true
                = (.ok hexed, cacheSet cache h (.inv hexed) (now + asUsize c.invExpSec), cs0) by
              simp only [Cluster.lookupInvoice, hmiss, hj, ho, hcv]
              simp] at heq
          simp only [Prod.mk.injEq, RunResult.ok.injEq] at heq
          obtain ⟨h1, h2, h3⟩ := heq
          rw [← h2, ← h1]

/-- C5: a present, unexpired invoice cache entry is returned with no
backend call; and on a miss, a successful unselected lookup writes the
returned invoice at the looked-up key under the invoice-domain expiry,
after which any second lookup of the same hash strictly before the
expiry instant returns the identical value with no backend call. -/
theorem claim_C5_cache_hit_then_populate :
    (∀ (c : Cluster) (cache : Cache) (now : Nat) (h : String) (inv : ClusterLookupInvoice)
        (pk : Option String) (setOk : Bool),
        cacheLive cache now h = some (.inv inv) →
        Cluster.lookupInvoice c cache now h pk setOk = (.ok inv, cache, []))
    ∧ (∀ (c : Cluster) (cache : Cache) (now : Nat) (h : String) (v : ClusterLookupInvoice)
        (cache' : Cache) (cs : List BCall),
        cacheLive cache now h = none →
        Cluster.lookupInvoice c cache now h none true = (.ok v, cache', cs) →
        cache' = cacheSet cache h (.inv v) (now + asUsize c.invExpSec)
        ∧ ∀ (t : Nat) (pk2 : Option String) (so2 : Bool), t < now + asUsize c.invExpSec →
            Cluster.lookupInvoice c cache' t h pk2 so2 = (.ok v, cache', [])) := by
  constructor
  · intro c cache now h inv pk setOk hhit
    exact lookup_hit c cache now h inv pk setOk hhit
  · intro c cache now h v cache' cs hmiss heq
    have hc' := lookup_ok_cache c cache now h none v cache' cs hmiss heq
    subst hc'
    refine ⟨rfl, ?_⟩
    intro t pk2 so2 ht
    apply lookup_hit
    rw [cacheLive_cacheSet]
    simp [ht]

/-- The canonicalized invoice the healthy test node yields. -/
def hexedB64 : ClusterLookupInvoice := { invB64 with r_hash := "000000", r_preimage := "000000" }

/-- A cache holding one live invoice entry. -/
def cacheWithInv : Cache := [("k1", .inv invB64, 10)]

/-- Witness for C5: a hit is served from the cache, and after a miss is
resolved the entry is present and a second lookup is served from it. -/
theorem claim_C5_witness :
    Cluster.lookupInvoice clusterFail cacheWithInv 0 "k1" none true = (.ok invB64, cacheWithInv, [])
    ∧ ([("AAAA", CacheVal.inv hexedB64, 60)] : Cache)
        = cacheSet [] "AAAA" (.inv hexedB64) (0 + asUsize clusterB64.invExpSec)
    ∧ Cluster.lookupInvoice clusterB64 [("AAAA", CacheVal.inv hexedB64, 60)] 1 "AAAA" none true
        = (.ok hexedB64, [("AAAA", CacheVal.inv hexedB64, 60)], []) := by
  refine ⟨?_, ?_, ?_⟩
  · exact claim_C5_cache_hit_then_populate.1 clusterFail cacheWithInv 0 "k1" invB64 none true rfl
  · exact (claim_C5_cache_hit_then_populate.2 clusterB64 [] 0 "AAAA" hexedB64
      (cacheSet [] "AAAA" (.inv hexedB64) (0 + asUsize clusterB64.invExpSec))
      [BCall.lookup "n1" "AAAA"] rfl (by decide)).1.symm.trans (by decide)
  · have h2 := (claim_C5_cache_hit_then_populate.2 clusterB64 [] 0 "AAAA" hexedB64
      (cacheSet [] "AAAA" (.inv hexedB64) (0 + asUsize clusterB64.invExpSec))
      [BCall.lookup "n1" "AAAA"] rfl (by decide)).2 1 none true (by decide)
    exact (by decide : ([("AAAA", CacheVal.inv hexedB64, 60)] : Cache)
      = cacheSet [] "AAAA" (.inv hexedB64) (0 + asUsize clusterB64.invExpSec)) ▸ h2

/-! ## Claim C3 -/

/-- A sample invoice-creation request. -/
def reqX : ClusterAddInvoice := { pubkey := none, memo := "x", value := 1000, expiry := 1000 }

/-- Counterexample to C3 as stated: at the one-node cluster whose node
has pubkey n1, creating an invoice with the unknown pubkey zz panics on
the unwrap of the node search instead of failing with the NodeNotFound
typed error. -/
theorem claim_C3_counterexample :
    (Cluster.addInvoice clusterFail reqX (some "zz") 0).1 = .panics unwrapNoneMsg
    ∧ (Cluster.addInvoice clusterFail reqX (some "zz") 0).1
        ≠ .err (.anyhowMsg nodeNotFoundMsg) := by
  constructor
  · decide
  · decide

/-- C3 amended: with an explicit pubkey matching no configured node,
list_utxos and pay_invoice fail with the NodeNotFound typed error and no
backend call, while lookup_invoice (on a cache miss), add_invoice and
next_address panic on the unwrap of the node search, also without any
backend call; in every case the cache is left unchanged. -/
theorem claim_C3_amended (c : Cluster) (cache : Cache) (now : Nat) (pk : String)
    (r_hash : String) (req : ClusterAddInvoice) (amount : Nat) (pr : String) (fee : Int)
    (idx : Nat) (setOk : Bool) (flags : List Bool)
    (hnone : List.find? (fun n => n.pubkey == pk) c.nodes = none) :
    Cluster.listUtxos c cache now (some pk) flags
        = (.err (.anyhowMsg nodeNotFoundMsg), cache, [])
    ∧ Cluster.payInvoice c amount pr fee (some pk) idx
        = (.err (.anyhowMsg nodeNotFoundMsg), [])
    ∧ (cacheLive cache now r_hash = none →
        Cluster.lookupInvoice c cache now r_hash (some pk) setOk
          = (.panics unwrapNoneMsg, cache, []))
    ∧ Cluster.addInvoice c req (some pk) idx = (.panics unwrapNoneMsg, [])
    ∧ Cluster.nextAddress c cache now (some pk) idx setOk
        = (.panics unwrapNoneMsg, cache, []) := by
  refine ⟨?_, ?_, ?_, ?_, ?_⟩
  · simp only [Cluster.listUtxos, hnone]
  · simp only [Cluster.payInvoice, hnone]
  · intro hmiss
    simp only [Cluster.lookupInvoice, hmiss, hnone]
  · simp only [Cluster.addInvoice, hnone]
  · simp only [Cluster.nextAddress, hnone]

/-- Witness for the amended C3 at a concrete cluster and unknown key. -/
theorem claim_C3_amended_witness :
    Cluster.listUtxos clusterFail [] 0 (some "zz") []
        = (.err (.anyhowMsg nodeNotFoundMsg), [], [])
    ∧ Cluster.payInvoice clusterFail 5 "pr" 3 (some "zz") 0
        = (.err (.anyhowMsg nodeNotFoundMsg), [])
    ∧ (cacheLive [] 0 "deadbeef" = none →
        Cluster.lookupInvoice clusterFail [] 0 "deadbeef" (some "zz") true
          = (.panics unwrapNoneMsg, [], []))
    ∧ Cluster.addInvoice clusterFail reqX (some "zz") 0 = (.panics unwrapNoneMsg, [])
    ∧ Cluster.nextAddress clusterFail [] 0 (some "zz") 0 true
        = (.panics unwrapNoneMsg, [], []) :=
  claim_C3_amended clusterFail [] 0 "zz" "deadbeef" reqX 5 "pr" 3 0 true [] rfl

/-! ## Claim C4 -/

/-- A node of a non-LND implementation kind. -/
def nodeCL : Node := mkNode "cl" .cLightning

/-- A cluster holding only the non-LND node. -/
def clusterCL : Cluster :=
  { nodes := [nodeCL], invExpSec := 60, addrExpSec := 60, utxoExpSec := 60 }

/-- C4: on a node whose client kind is not the supported LND dialect,
every node operation and payment dispatch panics with the only-LND
message (terminating the process) instead of failing with the
recoverable UnsupportedImplementation error the spec requires; no
backend call is made. -/
theorem claim_C4_non_lnd_panics :
    (nodeCL.lookupInvoice "aabb").1 = .panics onlyLndMsg
    ∧ (nodeCL.addInvoice reqX).1 = .panics onlyLndMsg
    ∧ nodeCL.nextAddress.1 = .panics onlyLndMsg
    ∧ nodeCL.listUtxos.1 = .panics onlyLndMsg
    ∧ (Cluster.payInvoice clusterCL 5 "pr" 3 (some "cl") 0).1 = .panics onlyLndMsg
    ∧ (nodeCL.lookupInvoice "aabb").2 = []
    ∧ (Cluster.payInvoice clusterCL 5 "pr" 3 (some "cl") 0).2 = [] := by
  refine ⟨rfl, rfl, rfl, rfl, rfl, rfl, rfl⟩

/-! ## Claim C10 -/

/-- C10: on a cluster with no configured nodes, each unselected-mode
operation (add_invoice, next_address, pay_invoice with no pubkey) panics
on the unwrap of the random choice over the empty node list instead of
returning a typed error. -/
theorem claim_C10_empty_cluster_panics (c : Cluster) (cache : Cache) (now : Nat)
    (req : ClusterAddInvoice) (amount : Nat) (pr : String) (fee : Int)
    (idx : Nat) (setOk : Bool)
    (hempty : c.nodes = []) :
    (Cluster.addInvoice c req none idx).1 = .panics unwrapNoneMsg
    ∧ (Cluster.nextAddress c cache now none idx setOk).1 = .panics unwrapNoneMsg
    ∧ (Cluster.payInvoice c amount pr fee none idx).1 = .panics unwrapNoneMsg := by
  have hch : chooseIdx c.nodes idx = none := by
    rw [hempty]; rfl
  refine ⟨?_, ?_, ?_⟩
  · simp only [Cluster.addInvoice, hch]
  · simp only [Cluster.nextAddress, hch]
  · simp only [Cluster.payInvoice, hch]

/-- Witness for C10 at the concrete empty cluster. -/
theorem claim_C10_witness :
    (Cluster.addInvoice clusterEmpty reqX none 0).1 = .panics unwrapNoneMsg
    ∧ (Cluster.nextAddress clusterEmpty [] 0 none 0 true).1 = .panics unwrapNoneMsg
    ∧ (Cluster.payInvoice clusterEmpty 5 "pr" 3 none 0).1 = .panics unwrapNoneMsg :=
  claim_C10_empty_cluster_panics clusterEmpty [] 0 reqX 5 "pr" 3 0 true rfl

/-! ## Hex canonicality lemmas -/

theorem hexDigitChar_mem (n : Nat) : hexDigitChars.contains (hexDigitChar n) = true := by
  have hmem : hexDigitChar n ∈ hexDigitChars := by
    unfold hexDigitChar hexDigitChars
    exact List.mem_map_of_mem _ (List.mem_range.mpr (Nat.mod_lt _ (by norm_num)))
  simpa using hmem

theorem isHexStr_hexEncode (bs : List Nat) : isHexStr (hexEncode bs) = true := by
  simp only [isHexStr, hexEncode]
  rw [List.all_eq_true]
  intro c hc
  rw [List.mem_flatMap] at hc
  obtain ⟨b, hb, hc⟩ := hc
  simp only [List.mem_cons, List.not_mem_nil, or_false] at hc
  rcases hc with h | h <;> (subst h; exact hexDigitChar_mem _)

theorem toHex_ok_isHex (s t : String) (h : toHex s = .ok t) : isHexStr t = true := by
  unfold toHex at h
  cases hd : b64Decode s.data with
  | some bs =>
    rw [hd] at h
    simp only [Except.ok.injEq] at h
    subst h
    exact isHexStr_hexEncode bs
  | none => rw [hd] at h; simp at h

theorem canonInvoice_ok (inv hexed : ClusterLookupInvoice) (h : canonInvoice inv = .ok hexed) :
    toHex inv.r_hash = .ok hexed.r_hash ∧ toHex inv.r_preimage = .ok hexed.r_preimage := by
  unfold canonInvoice at h
  cases h1 : toHex inv.r_hash with
  | error e => rw [h1] at h; simp at h
  | ok hh =>
    rw [h1] at h
    cases h2 : toHex inv.r_preimage with
    | error e => rw [h2] at h; simp at h
    | ok hp =>
      rw [h2] at h
      simp only [Except.ok.injEq] at h
      subst h
      exact ⟨rfl, rfl⟩

/-! ## Lookup inversion lemmas -/

/-- A successful unselected lookup on a miss comes from a gathered
fan-out whose first success canonicalizes to the returned value. -/
theorem lookup_fanout_ok_inversion (c : Cluster) (cache : Cache) (now : Nat) (h : String)
    (out : ClusterLookupInvoice) (cache' : Cache) (cs : List BCall)
    (hmiss : cacheLive cache now h = none)
    (heq : Cluster.lookupInvoice c cache now h none true = (.ok out, cache', cs)) :
    ∃ results, (joinLookup h c.nodes).1 = .inr results
      ∧ ∃ success, firstOk results = some success ∧ canonInvoice success = .ok out := by
  rcases hj : joinLookup h c.nodes with ⟨s, cs0⟩
  cases s with
  | inl m =>
    rw [show Cluster.lookupInvoice c cache now h none true = (.panics m, cache, cs0) by
        simp only [Cluster.lookupInvoice, hmiss, hj]] at heq
    simp at heq
  | inr results =>
    refine ⟨results, rfl, ?_⟩
    cases ho : firstOk results with
    | none =>
      rw [show Cluster.lookupInvoice c cache now h none true
            = (.err (.anyhowMsg noNodesFoundMsg), cache, cs0) by
          simp only [Cluster.lookupInvoice, hmiss, hj, ho]] at heq
      simp at heq
    | some success =>
      refine ⟨success, rfl, ?_⟩
      cases hcv : canonInvoice success with
      | error e =>
        rw [show Cluster.lookupInvoice c cache now h none true = (.err e, cache, cs0) by
            simp only [Cluster.lookupInvoice, hmiss, hj, ho, hcv]] at heq
        simp at heq
      | ok hexed =>
        rw [show Cluster.lookupInvoice c cache now h none true
              = (.ok hexed, cacheSet cache h (.inv hexed) (now + asUsize c.invExpSec), cs0) by
            simp only [Cluster.lookupInvoice, hmiss, hj, ho, hcv]
            simp] at heq
        simp only [Prod.mk.injEq, RunResult.ok.injEq] at heq
        rw [heq.1]

/-- A successful explicit-pubkey lookup on a miss comes from the found
node answering, with the answer canonicalizing to the returned value. -/
theorem lookup_explicit_ok_inversion (c : Cluster) (cache : Cache) (now : Nat) (h : String)
    (p : String) (node : Node) (out : ClusterLookupInvoice) (cache' : Cache) (cs : List BCall)
    (hmiss : cacheLive cache now h = none)
    (hf : List.find? (fun n => n.pubkey == p) c.nodes = some node)
    (heq : Cluster.lookupInvoice c cache now h (some p) true = (.ok out, cache', cs)) :
    ∃ raw, (node.lookupInvoice h).1 = .ok raw ∧ canonInvoice raw = .ok out := by
  rcases hn : node.lookupInvoice h with ⟨r, cs0⟩
  cases r with
  | ok invoice =>
    refine ⟨invoice, rfl, ?_⟩
    cases hcv : canonInvoice invoice with
    | error e =>
      rw [show Cluster.lookupInvoice c cache now h (some p) true = (.err e, cache, cs0) by
          simp only [Cluster.lookupInvoice, hmiss, hf, hn, hcv]] at heq
      simp at heq
    | ok hexed =>
      rw [show Cluster.lookupInvoice c cache now h (some p) true
            = (.ok hexed, cacheSet cache h (.inv hexed) (now + asUsize c.invExpSec), cs0) by
          simp only [Cluster.lookupInvoice, hmiss, hf, hn, hcv]
          simp] at heq
      simp only [Prod.mk.injEq, RunResult.ok.injEq] at heq
      rw [heq.1]
  | err e =>
    rw [show Cluster.lookupInvoice c cache now h (some p) true = (.err e, cache, cs0) by
        simp only [Cluster.lookupInvoice, hmiss, hf, hn]] at heq
    simp at heq
  | panics m =>
    rw [show Cluster.lookupInvoice c cache now h (some p) true = (.panics m, cache, cs0) by
        simp only [Cluster.lookupInvoice, hmiss, hf, hn]] at heq
    simp at heq

/-! ## Claim C6 -/

/-- Counterexample to C6 as stated: the invoice leaving
`Node::lookup_invoice` still carries the backend encoding of its binary
fields (here the base64 text AAAA, which is not canonical hex), so
canonicalization does not happen before the value leaves the Node
boundary; it is the Cluster layer that later re-encodes it. -/
theorem claim_C6_counterexample :
    (Node.lookupInvoice (mkNode "n1" (.lnd (lookupClient respB64))) "k").1
        = .ok (respB64.to_cluster "n1")
    ∧ (respB64.to_cluster "n1").r_hash = "AAAA"
    ∧ toHex "AAAA" = .ok "000000"
    ∧ isHexStr "AAAA" = false := by
  refine ⟨rfl, rfl, by decide, by decide⟩

/-- C6 amended: the binary fields of every value returned to the caller
of the Cluster are the hex encoding of the base64-decoded backend value;
for invoice creation this re-encoding happens inside Node::add_invoice,
but for lookups the Node returns the backend encoding verbatim and the
re-encoding happens in Cluster::lookup_invoice, before the value is
returned or cached. -/
theorem claim_C6_amended :
    (∀ (n : Node) (client : LndClient) (req : ClusterAddInvoice) (resp : AddInvoiceResponse)
        (out : AddInvoiceResponse) (cs : List BCall),
        n.client = .lnd client →
        client.addInvoiceCluster req = .ok resp →
        n.addInvoice req = (.ok out, cs) →
        toHex resp.r_hash = .ok out.r_hash ∧ toHex resp.payment_addr = .ok out.payment_addr
          ∧ isHexStr out.r_hash = true ∧ isHexStr out.payment_addr = true)
    ∧ (∀ (c : Cluster) (cache : Cache) (now : Nat) (h : String)
        (inv out : ClusterLookupInvoice) (cache' : Cache) (cs : List BCall),
        (∀ n ∈ c.nodes, n.client.isLnd = true) →
        cacheLive cache now h = none →
        firstSuccess (c.nodes.map (fun n => nodeLookupRes n h)) = some inv →
        Cluster.lookupInvoice c cache now h none true = (.ok out, cache', cs) →
        toHex inv.r_hash = .ok out.r_hash ∧ toHex inv.r_preimage = .ok out.r_preimage
          ∧ isHexStr out.r_hash = true ∧ isHexStr out.r_preimage = true)
    ∧ (∀ (c : Cluster) (cache : Cache) (now : Nat) (h : String) (p : String) (node : Node)
        (out : ClusterLookupInvoice) (cache' : Cache) (cs : List BCall),
        cacheLive cache now h = none →
        List.find? (fun n => n.pubkey == p) c.nodes = some node →
        Cluster.lookupInvoice c cache now h (some p) true = (.ok out, cache', cs) →
        ∃ raw, (node.lookupInvoice h).1 = .ok raw
          ∧ toHex raw.r_hash = .ok out.r_hash ∧ toHex raw.r_preimage = .ok out.r_preimage
          ∧ isHexStr out.r_hash = true ∧ isHexStr out.r_preimage = true) := by
  refine ⟨?_, ?_, ?_⟩
  · intro n client req resp out cs hcl hresp hadd
    cases h1 : toHex resp.r_hash with
    | error e =>
      rw [show n.addInvoice req = (.err e, [.addInv n.pubkey]) by
          simp only [Node.addInvoice, hcl, hresp, h1]] at hadd
      simp at hadd
    | ok hh =>
      cases h2 : toHex resp.payment_addr with
      | error e =>
        rw [show n.addInvoice req = (.err e, [.addInv n.pubkey]) by
            simp only [Node.addInvoice, hcl, hresp, h1, h2]] at hadd
        simp at hadd
      | ok pa =>
        rw [show n.addInvoice req
              = (.ok { resp with r_hash := hh, payment_addr := pa }, [.addInv n.pubkey]) by
            simp only [Node.addInvoice, hcl, hresp, h1, h2]] at hadd
        simp only [Prod.mk.injEq, RunResult.ok.injEq] at hadd
        rw [← hadd.1]
        exact ⟨rfl, rfl, toHex_ok_isHex _ _ h1, toHex_ok_isHex _ _ h2⟩
  · intro c cache now h inv out cache' cs hlnd hmiss hfirst heq
    obtain ⟨results, hjr, success, ho, hcv⟩ :=
      lookup_fanout_ok_inversion c cache now h out cache' cs hmiss heq
    obtain ⟨results2, hj2, hfo2⟩ := joinLookup_lnd h c.nodes hlnd
    have hres : results = results2 := by
      rw [hj2] at hjr
      exact (Sum.inr.injEq _ _ ▸ hjr).symm
    subst hres
    have hsi : success = inv := by
      rw [ho] at hfo2
      rw [hfirst] at hfo2
      exact (Option.some.injEq _ _ ▸ hfo2)
    subst hsi
    obtain ⟨e1, e2⟩ := canonInvoice_ok success out hcv
    exact ⟨e1, e2, toHex_ok_isHex _ _ e1, toHex_ok_isHex _ _ e2⟩
  · intro c cache now h p node out cache' cs hmiss hf heq
    obtain ⟨raw, hraw, hcv⟩ :=
      lookup_explicit_ok_inversion c cache now h p node out cache' cs hmiss hf heq
    obtain ⟨e1, e2⟩ := canonInvoice_ok raw out hcv
    exact ⟨raw, hraw, e1, e2, toHex_ok_isHex _ _ e1, toHex_ok_isHex _ _ e2⟩

/-- A client answering invoice creation with base64-encoded fields. -/
def addRespB64 : AddInvoiceResponse :=
  { r_hash := "AAAA", payment_request := "lnbc1", add_index := "1", payment_addr := "AAAA" }

/-- A client whose invoice creation succeeds with `addRespB64`. -/
def addOkClient : LndClient := { failClient with addInvoice := fun _ => .ok addRespB64 }

/-- The canonicalized creation response. -/
def addRespHexed : AddInvoiceResponse :=
  { addRespB64 with r_hash := "000000", payment_addr := "000000" }

/-- Witness for the amended C6 at concrete nodes and clusters. -/
theorem claim_C6_amended_witness :
    (toHex addRespB64.r_hash = .ok addRespHexed.r_hash
      ∧ toHex addRespB64.payment_addr = .ok addRespHexed.payment_addr
      ∧ isHexStr addRespHexed.r_hash = true ∧ isHexStr addRespHexed.payment_addr = true)
    ∧ (toHex invB64.r_hash = .ok hexedB64.r_hash
      ∧ toHex invB64.r_preimage = .ok hexedB64.r_preimage
      ∧ isHexStr hexedB64.r_hash = true ∧ isHexStr hexedB64.r_preimage = true)
    ∧ (∃ raw, ((mkNode "n1" (.lnd (lookupClient respB64))).lookupInvoice "AAAA").1 = .ok raw
      ∧ toHex raw.r_hash = .ok hexedB64.r_hash ∧ toHex raw.r_preimage = .ok hexedB64.r_preimage
      ∧ isHexStr hexedB64.r_hash = true ∧ isHexStr hexedB64.r_preimage = true) := by
  refine ⟨?_, ?_, ?_⟩
  · exact claim_C6_amended.1 (mkNode "n1" (.lnd addOkClient)) addOkClient reqX addRespB64
      addRespHexed [.addInv "n1"] rfl rfl (by decide)
  · exact claim_C6_amended.2.1 clusterB64 [] 0 "AAAA" invB64 hexedB64
      [("AAAA", CacheVal.inv hexedB64, 60)] [.lookup "n1" "AAAA"] (by decide) rfl rfl (by decide)
  · exact claim_C6_amended.2.2 clusterB64 [] 0 "AAAA" "n1" (mkNode "n1" (.lnd (lookupClient respB64)))
      hexedB64 [("AAAA", CacheVal.inv hexedB64, 60)] [.lookup "n1" "AAAA"] rfl rfl (by decide)

/-! ## Claim C7 -/

/-- A one-node cluster whose backend reports slash-bearing base64
binary fields. -/
def clusterSlash : Cluster :=
  { nodes := [mkNode "n1" (.lnd (lookupClient respSlash))]
    invExpSec := 60
    addrExpSec := 60
    utxoExpSec := 60 }

/-- The canonicalized invoice of the slash-encoded response. -/
def hexedSlash : ClusterLookupInvoice :=
  { respSlash.to_cluster "n1" with r_hash := "ffffff", r_preimage := "ffffff" }

/-- Counterexample to C7 as stated: looking up the hash under its
base64 spelling caches the invoice under that caller-supplied key
(slashes and all, visibly not hex), while no entry exists under the
canonical hex hash ffffff the returned invoice carries.  The cache key
is therefore not the canonicalized hash. -/
theorem claim_C7_counterexample :
    (Cluster.lookupInvoice clusterSlash [] 0 "////" none true).1 = .ok hexedSlash
    ∧ hexedSlash.r_hash = "ffffff"
    ∧ cacheLive (Cluster.lookupInvoice clusterSlash [] 0 "////" none true).2.1 0 "////"
        = some (.inv hexedSlash)
    ∧ cacheLive (Cluster.lookupInvoice clusterSlash [] 0 "////" none true).2.1 0 "ffffff"
        = none
    ∧ isHexStr "////" = false := by decide

/-- The outcome and the backend call log of lookup_invoice depend on
the cache state only through the caller-supplied key, and not at all on
whether the ignored cache write succeeds. -/
theorem lookup_agree (c : Cluster) (cache1 cache2 : Cache) (now : Nat) (h : String)
    (pk : Option String) (s1 s2 : Bool)
    (hagree : cacheLive cache1 now h = cacheLive cache2 now h) :
    (Cluster.lookupInvoice c cache1 now h pk s1).1
        = (Cluster.lookupInvoice c cache2 now h pk s2).1
    ∧ (Cluster.lookupInvoice c cache1 now h pk s1).2.2
        = (Cluster.lookupInvoice c cache2 now h pk s2).2.2 := by
  cases hv : cacheLive cache1 now h with
  | some val =>
    have hv2 : cacheLive cache2 now h = some val := by rw [← hagree, hv]
    cases val with
    | inv inv =>
      rw [lookup_hit c cache1 now h inv pk s1 hv, lookup_hit c cache2 now h inv pk s2 hv2]
      exact ⟨rfl, rfl⟩
    | str s =>
      rw [show Cluster.lookupInvoice c cache1 now h pk s1
            = (.panics invalidRedisMsg, cache1, []) by
          simp only [Cluster.lookupInvoice, hv],
        show Cluster.lookupInvoice c cache2 now h pk s2
            = (.panics invalidRedisMsg, cache2, []) by
          simp only [Cluster.lookupInvoice, hv2]]
      exact ⟨rfl, rfl⟩
    | utxos u =>
      rw [show Cluster.lookupInvoice c cache1 now h pk s1
            = (.panics invalidRedisMsg, cache1, []) by
          simp only [Cluster.lookupInvoice, hv],
        show Cluster.lookupInvoice c cache2 now h pk s2
            = (.panics invalidRedisMsg, cache2, []) by
          simp only [Cluster.lookupInvoice, hv2]]
      exact ⟨rfl, rfl⟩
  | none =>
    have hv2 : cacheLive cache2 now h = none := by rw [← hagree, hv]
    cases pk with
    | some p =>
      cases hf : List.find? (fun n => n.pubkey == p) c.nodes with
      | none =>
        rw [show Cluster.lookupInvoice c cache1 now h (some p) s1
              = (.panics unwrapNoneMsg, cache1, []) by
            simp only [Cluster.lookupInvoice, hv, hf],
          show Cluster.lookupInvoice c cache2 now h (some p) s2
              = (.panics unwrapNoneMsg, cache2, []) by
            simp only [Cluster.lookupInvoice, hv2, hf]]
        exact ⟨rfl, rfl⟩
      | some node =>
        rcases hn : node.lookupInvoice h with ⟨r, cs0⟩
        cases r with
        | ok invoice =>
          cases hcv : canonInvoice invoice with
          | error e =>
            rw [show Cluster.lookupInvoice c cache1 now h (some p) s1
                  = (.err e, cache1, cs0) by
                simp only [Cluster.lookupInvoice, hv, hf, hn, hcv],
              show Cluster.lookupInvoice c cache2 now h (some p) s2
                  = (.err e, cache2, cs0) by
                simp only [Cluster.lookupInvoice, hv2, hf, hn, hcv]]
            exact ⟨rfl, rfl⟩
          | ok hexed =>
            rw [show Cluster.lookupInvoice c cache1 now h (some p) s1
                  = (.ok hexed,
                      if s1 then
                        cacheSet cache1 h (.inv hexed) (now + asUsize c.invExpSec)
                      else cache1, cs0) by
                simp only [Cluster.lookupInvoice, hv, hf, hn, hcv],
              show Cluster.lookupInvoice c cache2 now h (some p) s2
                  = (.ok hexed,
                      if s2 then
                        cacheSet cache2 h (.inv hexed) (now + asUsize c.invExpSec)
                      else cache2, cs0) by
                simp only [Cluster.lookupInvoice, hv2, hf, hn, hcv]]
            exact ⟨rfl, rfl⟩
        | err e =>
          rw [show Cluster.lookupInvoice c cache1 now h (some p) s1
                = (.err e, cache1, cs0) by
              simp only [Cluster.lookupInvoice, hv, hf, hn],
            show Cluster.lookupInvoice c cache2 now h (some p) s2
                = (.err e, cache2, cs0) by
              simp only [Cluster.lookupInvoice, hv2, hf, hn]]
          exact ⟨rfl, rfl⟩
        | panics m =>
          rw [show Cluster.lookupInvoice c cache1 now h (some p) s1
                = (.panics m, cache1, cs0) by
              simp only [Cluster.lookupInvoice, hv, hf, hn],
            show Cluster.lookupInvoice c cache2 now h (some p) s2
                = (.panics m, cache2, cs0) by
              simp only [Cluster.lookupInvoice, hv2, hf, hn]]
          exact ⟨rfl, rfl⟩
    | none =>
      rcases hj : joinLookup h c.nodes with ⟨s, cs0⟩
      cases s with
      | inl m =>
        rw [show Cluster.lookupInvoice c cache1 now h none s1
              = (.panics m, cache1, cs0) by
            simp only [Cluster.lookupInvoice, hv, hj],
          show Cluster.lookupInvoice c cache2 now h none s2
              = (.panics m, cache2, cs0) by
            simp only [Cluster.lookupInvoice, hv2, hj]]
        exact ⟨rfl, rfl⟩
      | inr results =>
        cases ho : firstOk results with
        | none =>
          rw [show Cluster.lookupInvoice c cache1 now h none s1
                = (.err (.anyhowMsg noNodesFoundMsg), cache1, cs0) by
              simp only [Cluster.lookupInvoice, hv, hj, ho],
            show Cluster.lookupInvoice c cache2 now h none s2
                = (.err (.anyhowMsg noNodesFoundMsg), cache2, cs0) by
              simp only [Cluster.lookupInvoice, hv2, hj, ho]]
          exact ⟨rfl, rfl⟩
        | some success =>
          cases hcv : canonInvoice success with
          | error e =>
            rw [show Cluster.lookupInvoice c cache1 now h none s1
                  = (.err e, cache1, cs0) by
                simp only [Cluster.lookupInvoice, hv, hj, ho, hcv],
              show Cluster.lookupInvoice c cache2 now h none s2
                  = (.err e, cache2, cs0) by
                simp only [Cluster.lookupInvoice, hv2, hj, ho, hcv]]
            exact ⟨rfl, rfl⟩
          | ok hexed =>
            rw [show Cluster.lookupInvoice c cache1 now h none s1
                  = (.ok hexed,
                      if s1 then
                        cacheSet cache1 h (.inv hexed) (now + asUsize c.invExpSec)
                      else cache1, cs0) by
                simp only [Cluster.lookupInvoice, hv, hj, ho, hcv],
              show Cluster.lookupInvoice c cache2 now h none s2
                  = (.ok hexed,
                      if s2 then
                        cacheSet cache2 h (.inv hexed) (now + asUsize c.invExpSec)
                      else cache2, cs0) by
                simp only [Cluster.lookupInvoice, hv2, hj, ho, hcv]]
            exact ⟨rfl, rfl⟩

/-- C7 amended: within one lookup_invoice call, the cache is consulted
and populated under the caller-supplied r_hash string verbatim (the
outcome and the backend call log depend on the cache only through that
key, and a successful miss writes exactly that key); the canonical hex
hash itself is never used as the key, so the same invoice can live
under two different keys when callers use two encodings. -/
theorem claim_C7_amended :
    (∀ (c : Cluster) (cache1 cache2 : Cache) (now : Nat) (h : String)
        (pk : Option String) (setOk : Bool),
        cacheLive cache1 now h = cacheLive cache2 now h →
        (Cluster.lookupInvoice c cache1 now h pk setOk).1
            = (Cluster.lookupInvoice c cache2 now h pk setOk).1
          ∧ (Cluster.lookupInvoice c cache1 now h pk setOk).2.2
            = (Cluster.lookupInvoice c cache2 now h pk setOk).2.2)
    ∧ (∀ (c : Cluster) (cache : Cache) (now : Nat) (h : String) (pk : Option String)
        (v : ClusterLookupInvoice) (cache' : Cache) (cs : List BCall),
        cacheLive cache now h = none →
        Cluster.lookupInvoice c cache now h pk true = (.ok v, cache', cs) →
        cache' = cacheSet cache h (.inv v) (now + asUsize c.invExpSec)) := by
  constructor
  · intro c cache1 cache2 now h pk setOk hagree
    exact lookup_agree c cache1 cache2 now h pk setOk setOk hagree
  · intro c cache now h pk v cache' cs hmiss heq
    exact lookup_ok_cache c cache now h pk v cache' cs hmiss heq

/-- Witness for the amended C7: two caches agreeing at the looked-up
key give the same outcome and call log, and a concrete successful miss
writes exactly the caller-supplied key. -/
theorem claim_C7_amended_witness :
    ((Cluster.lookupInvoice clusterSlash [("other", CacheVal.str "x", 99)] 0 "////" none true).1
        = (Cluster.lookupInvoice clusterSlash [] 0 "////" none true).1
      ∧ (Cluster.lookupInvoice clusterSlash [("other", CacheVal.str "x", 99)] 0 "////" none true).2.2
        = (Cluster.lookupInvoice clusterSlash [] 0 "////" none true).2.2)
    ∧ ([("////", CacheVal.inv hexedSlash, 60)] : Cache)
        = cacheSet [] "////" (.inv hexedSlash) (0 + asUsize clusterSlash.invExpSec) := by
  constructor
  · exact claim_C7_amended.1 clusterSlash [("other", CacheVal.str "x", 99)] [] 0 "////"
      none true (by decide)
  · exact (claim_C7_amended.2 clusterSlash [] 0 "////" none hexedSlash
      (cacheSet [] "////" (.inv hexedSlash) (0 + asUsize clusterSlash.invExpSec))
      [.lookup "n1" "////"] rfl (by decide)).symm.trans (by decide)

/-! ## Claim C8 -/

/-- One step of the aggregate UTXO loop can complete for a node: its
entry is live in the cache, or it is missing and the fetch succeeds. -/
def stepOk (cache : Cache) (now : Nat) (n : Node) : Prop :=
  (∃ u, cacheLive cache now (utxoKey n) = some (.utxos u))
  ∨ (cacheLive cache now (utxoKey n) = none ∧ ∃ u cs, n.listUtxos = (.ok u, cs))

/-- The UTXO set one node contributes: the cached set when live, else
the freshly fetched set. -/
def nodeSet (cache : Cache) (now : Nat) (n : Node) : List ClusterUtxo :=
  match cacheLive cache now (utxoKey n) with
  | some (.utxos u) => u.utxos
  | _ =>
    match (n.listUtxos).1 with
    | .ok u => u.utxos
    | _ => []

theorem cacheLive_if_set_agree (cache : Cache) (now e : Nat) (key k : String)
    (v : CacheVal) (flag : Bool) (hne : k ≠ key) :
    cacheLive (if flag then cacheSet cache key v e else cache) now k = cacheLive cache now k := by
  cases flag <;> simp [cacheLive_cacheSet, hne]

/-- Hit step of the aggregate loop. -/
theorem utxosLoop_cons_hit (now ttl : Nat) (n : Node) (rest : List Node) (cache : Cache)
    (flags : List Bool) (u : ClusterUtxos)
    (hu : cacheLive cache now (utxoKey n) = some (.utxos u)) :
    utxosLoop now ttl (n :: rest) cache flags
      = ((utxosLoop now ttl rest cache flags).1.map (fun l => u.utxos ++ l),
         (utxosLoop now ttl rest cache flags).2.1,
         (utxosLoop now ttl rest cache flags).2.2) := by
  rcases hrec : utxosLoop now ttl rest cache flags with ⟨r, c2, cs2⟩
  simp only [utxosLoop, hu, hrec]

/-- Miss-then-fetch-success step of the aggregate loop. -/
theorem utxosLoop_cons_miss_ok (now ttl : Nat) (n : Node) (rest : List Node) (cache : Cache)
    (flags : List Bool) (u : ClusterUtxos) (cs : List BCall)
    (hm : cacheLive cache now (utxoKey n) = none)
    (hf : n.listUtxos = (.ok u, cs)) :
    utxosLoop now ttl (n :: rest) cache flags
      = ((utxosLoop now ttl rest
            (if (takeFlag flags).1 then cacheSet cache (utxoKey n) (.utxos u) (now + ttl)
             else cache) (takeFlag flags).2).1.map (fun l => u.utxos ++ l),
         (utxosLoop now ttl rest
            (if (takeFlag flags).1 then cacheSet cache (utxoKey n) (.utxos u) (now + ttl)
             else cache) (takeFlag flags).2).2.1,
         cs ++ (utxosLoop now ttl rest
            (if (takeFlag flags).1 then cacheSet cache (utxoKey n) (.utxos u) (now + ttl)
             else cache) (takeFlag flags).2).2.2) := by
  rcases htf : takeFlag flags with ⟨flag, flags2⟩
  rcases hrec : utxosLoop now ttl rest
      (if flag then cacheSet cache (utxoKey n) (.utxos u) (now + ttl) else cache) flags2
    with ⟨r, c2, cs2⟩
  simp only [utxosLoop, hm, hf, htf, hrec]

/-- Miss-then-fetch-failure step of the aggregate loop. -/
theorem utxosLoop_cons_miss_err (now ttl : Nat) (n : Node) (rest : List Node) (cache : Cache)
    (flags : List Bool) (e : CErr) (cs : List BCall)
    (hm : cacheLive cache now (utxoKey n) = none)
    (hf : n.listUtxos = (.err e, cs)) :
    utxosLoop now ttl (n :: rest) cache flags = (.err e, cache, cs) := by
  simp only [utxosLoop, hm, hf]

/-- Success characterization of the aggregate loop: when every node can
complete, the loop returns the concatenation of the per-node sets in
iteration order, every node ends with a live cache entry holding its
set, and keys of no node are untouched. -/
theorem utxosLoop_ok (now ttl : Nat) (httl : 0 < ttl) :
    ∀ (nodes : List Node) (cache : Cache),
    (nodes.map utxoKey).Nodup →
    (∀ n ∈ nodes, stepOk cache now n) →
    (utxosLoop now ttl nodes cache []).1 = .ok ((nodes.map (nodeSet cache now)).flatten)
    ∧ (∀ n ∈ nodes,
        cacheLive (utxosLoop now ttl nodes cache []).2.1 now (utxoKey n)
          = some (.utxos ⟨nodeSet cache now n⟩))
    ∧ (∀ k, (∀ n ∈ nodes, utxoKey n ≠ k) →
        cacheLive (utxosLoop now ttl nodes cache []).2.1 now k = cacheLive cache now k) := by
  intro nodes
  induction nodes with
  | nil =>
    intro cache _ _
    exact ⟨rfl, by simp, fun k _ => rfl⟩
  | cons n rest ih =>
    intro cache hnd hok
    rw [List.map_cons, List.nodup_cons] at hnd
    obtain ⟨hkn, hnd'⟩ := hnd
    rcases hok n (List.mem_cons_self _ _) with ⟨u, hu⟩ | ⟨hmiss, u, cs, hfetch⟩
    · -- the node is served from the cache
      have hstep := utxosLoop_cons_hit now ttl n rest cache [] u hu
      obtain ⟨ih1, ih2, ih3⟩ := ih cache hnd' (fun m hm => hok m (List.mem_cons_of_mem _ hm))
      refine ⟨?_, ?_, ?_⟩
      · rw [hstep]
        show RunResult.map _ _ = _
        rw [ih1]
        simp [RunResult.map, nodeSet, hu]
      · intro m hm
        rw [hstep]
        show cacheLive (utxosLoop now ttl rest cache []).2.1 now (utxoKey m) = _
        rcases List.mem_cons.mp hm with rfl | hm2
        · have hne : ∀ x ∈ rest, utxoKey x ≠ utxoKey m := by
            intro x hx hh
            exact hkn (hh ▸ List.mem_map_of_mem utxoKey hx)
          rw [ih3 (utxoKey m) hne, hu]
          simp [nodeSet, hu]
        · exact ih2 m hm2
      · intro k hk
        rw [hstep]
        show cacheLive (utxosLoop now ttl rest cache []).2.1 now k = _
        exact ih3 k (fun m hm => hk m (List.mem_cons_of_mem _ hm))
    · -- the node is fetched and cached
      have hstep := utxosLoop_cons_miss_ok now ttl n rest cache [] u cs hmiss hfetch
      simp only [takeFlag, if_true] at hstep
      have hagree : ∀ m ∈ rest,
          cacheLive (cacheSet cache (utxoKey n) (.utxos u) (now + ttl)) now (utxoKey m)
            = cacheLive cache now (utxoKey m) := by
        intro m hm
        rw [cacheLive_cacheSet]
        have hne : utxoKey m ≠ utxoKey n := by
          intro hh
          exact hkn (hh ▸ List.mem_map_of_mem utxoKey hm)
        simp [hne]
      have hok2 : ∀ m ∈ rest, stepOk (cacheSet cache (utxoKey n) (.utxos u) (now + ttl)) now m := by
        intro m hm
        rcases hok m (List.mem_cons_of_mem _ hm) with ⟨w, hw⟩ | ⟨hm2, w, cs3, hf2⟩
        · exact Or.inl ⟨w, by rw [hagree m hm, hw]⟩
        · exact Or.inr ⟨by rw [hagree m hm]; exact hm2, w, cs3, hf2⟩
      have hsets : ∀ m ∈ rest,
          nodeSet (cacheSet cache (utxoKey n) (.utxos u) (now + ttl)) now m
            = nodeSet cache now m := by
        intro m hm
        unfold nodeSet
        rw [hagree m hm]
      obtain ⟨ih1, ih2, ih3⟩ :=
        ih (cacheSet cache (utxoKey n) (.utxos u) (now + ttl)) hnd' hok2
      refine ⟨?_, ?_, ?_⟩
      · rw [hstep]
        show RunResult.map _ _ = _
        rw [ih1, List.map_congr_left hsets]
        simp [RunResult.map, nodeSet, hmiss, hfetch]
      · intro m hm
        rw [hstep]
        show cacheLive (utxosLoop now ttl rest
            (cacheSet cache (utxoKey n) (.utxos u) (now + ttl)) []).2.1 now (utxoKey m) = _
        rcases List.mem_cons.mp hm with rfl | hm2
        · have hne : ∀ x ∈ rest, utxoKey x ≠ utxoKey m := by
            intro x hx hh
            exact hkn (hh ▸ List.mem_map_of_mem utxoKey hx)
          rw [ih3 (utxoKey m) hne, cacheLive_cacheSet, if_pos rfl,
            if_pos (Nat.lt_add_of_pos_right httl)]
          simp [nodeSet, hmiss, hfetch]
        · rw [ih2 m hm2, hsets m hm2]
      · intro k hk
        rw [hstep]
        show cacheLive (utxosLoop now ttl rest
            (cacheSet cache (utxoKey n) (.utxos u) (now + ttl)) []).2.1 now k = _
        rw [ih3 k (fun m hm => hk m (List.mem_cons_of_mem _ hm)), cacheLive_cacheSet,
          if_neg (fun hh : k = utxoKey n => (hk n (List.mem_cons_self _ _)) hh.symm)]

/-- Abort characterization of the aggregate loop: the first node whose
entry is missing and whose fetch fails makes the whole loop fail with
that error. -/
theorem utxosLoop_err (now ttl : Nat) :
    ∀ (pre : List Node) (bad : Node) (post : List Node) (cache : Cache) (flags : List Bool)
      (e : CErr) (cs : List BCall),
    ((pre ++ bad :: post).map utxoKey).Nodup →
    (∀ n ∈ pre, stepOk cache now n) →
    cacheLive cache now (utxoKey bad) = none →
    bad.listUtxos = (.err e, cs) →
    (utxosLoop now ttl (pre ++ bad :: post) cache flags).1 = .err e := by
  intro pre
  induction pre with
  | nil =>
    intro bad post cache flags e cs _ _ hbad hfetch
    rw [List.nil_append, utxosLoop_cons_miss_err now ttl bad post cache flags e cs hbad hfetch]
  | cons n pre2 ih =>
    intro bad post cache flags e cs hnd hok hbad hfetch
    rw [List.cons_append, List.map_cons, List.nodup_cons] at hnd
    obtain ⟨hkn, hnd'⟩ := hnd
    have hbad_mem : bad ∈ pre2 ++ bad :: post := by simp
    have hbadk_ne : utxoKey bad ≠ utxoKey n := by
      intro hh
      exact hkn (hh ▸ List.mem_map_of_mem utxoKey hbad_mem)
    rw [List.cons_append]
    rcases hok n (List.mem_cons_self _ _) with ⟨u, hu⟩ | ⟨hm, u, cs0, hf⟩
    · have h1 := ih bad post cache flags e cs hnd'
        (fun m hm => hok m (List.mem_cons_of_mem _ hm)) hbad hfetch
      rw [utxosLoop_cons_hit now ttl n (pre2 ++ bad :: post) cache flags u hu]
      show RunResult.map _ _ = _
      rw [h1]
      rfl
    · rcases htf : takeFlag flags with ⟨flag, flags2⟩
      have hagree : ∀ k, k ≠ utxoKey n →
          cacheLive (if flag then cacheSet cache (utxoKey n) (.utxos u) (now + ttl) else cache)
            now k = cacheLive cache now k := by
        intro k hk
        exact cacheLive_if_set_agree cache now (now + ttl) (utxoKey n) k (.utxos u) flag hk
      have hok2 : ∀ m ∈ pre2,
          stepOk (if flag then cacheSet cache (utxoKey n) (.utxos u) (now + ttl) else cache)
            now m := by
        intro m hm
        have hne : utxoKey m ≠ utxoKey n := by
          intro hh
          refine hkn (hh ▸ List.mem_map_of_mem utxoKey ?_)
          exact List.mem_append_left _ hm
        rcases hok m (List.mem_cons_of_mem _ hm) with ⟨w, hw⟩ | ⟨hm2, w, cs3, hf2⟩
        · exact Or.inl ⟨w, by rw [hagree _ hne, hw]⟩
        · exact Or.inr ⟨by rw [hagree _ hne]; exact hm2, w, cs3, hf2⟩
      have hbad2 :
          cacheLive (if flag then cacheSet cache (utxoKey n) (.utxos u) (now + ttl) else cache)
            now (utxoKey bad) = none := by
        rw [hagree _ hbadk_ne]
        exact hbad
      have h1 := ih bad post
        (if flag then cacheSet cache (utxoKey n) (.utxos u) (now + ttl) else cache)
        flags2 e cs hnd' hok2 hbad2 hfetch
      rw [utxosLoop_cons_miss_ok now ttl n (pre2 ++ bad :: post) cache flags u cs0 hm hf, htf]
      show RunResult.map _ _ = _
      rw [h1]
      rfl

/-- Distinct pubkeys give distinct UTXO cache keys. -/
theorem utxoKey_nodup (nodes : List Node)
    (h : (nodes.map (fun n => n.pubkey)).Nodup) : (nodes.map utxoKey).Nodup := by
  have : nodes.map utxoKey = (nodes.map (fun n => n.pubkey)).map (fun s => "utxos:" ++ s) := by
    rw [List.map_map]
    rfl
  rw [this]
  apply List.Nodup.map _ h
  intro a b hab
  have hab2 : "utxos:" ++ a = "utxos:" ++ b := hab
  have hd : ("utxos:" ++ a).data = ("utxos:" ++ b).data := by rw [hab2]
  rw [String.data_append, String.data_append] at hd
  exact String.ext (List.append_cancel_left hd)

/-- C8: list_utxos with no pubkey consults the per-node cache in node
iteration order; when every node is cached or fetches successfully, it
returns the concatenation of the per-node sets in iteration order and
every previously missing node ends cached (under the UTXO-domain
expiry) with its fetched set; and the first node whose entry is missing
and whose fetch fails makes the whole aggregate call fail with that
error, returning no partial result. -/
theorem claim_C8_list_utxos_aggregate (c : Cluster) (cache : Cache) (now : Nat)
    (hnodup : (c.nodes.map (fun n => n.pubkey)).Nodup)
    (httl : 0 < asUsize c.utxoExpSec) :
    ((∀ n ∈ c.nodes, stepOk cache now n) →
      (Cluster.listUtxos c cache now none []).1
          = .ok ⟨(c.nodes.map (nodeSet cache now)).flatten⟩
      ∧ ∀ n ∈ c.nodes,
          cacheLive (Cluster.listUtxos c cache now none []).2.1 now (utxoKey n)
            = some (.utxos ⟨nodeSet cache now n⟩))
    ∧ (∀ (pre : List Node) (bad : Node) (post : List Node) (e : CErr) (cs : List BCall)
          (flags : List Bool),
        c.nodes = pre ++ bad :: post →
        (∀ n ∈ pre, stepOk cache now n) →
        cacheLive cache now (utxoKey bad) = none →
        bad.listUtxos = (.err e, cs) →
        (Cluster.listUtxos c cache now none flags).1 = .err e) := by
  have keyNodup : (c.nodes.map utxoKey).Nodup := utxoKey_nodup c.nodes hnodup
  constructor
  · intro hok
    obtain ⟨l1, l2, l3⟩ :=
      utxosLoop_ok now (asUsize c.utxoExpSec) httl c.nodes cache keyNodup hok
    rcases hrec : utxosLoop now (asUsize c.utxoExpSec) c.nodes cache [] with ⟨r, c2, cs2⟩
    have hr : r = .ok ((c.nodes.map (nodeSet cache now)).flatten) := by
      rw [hrec] at l1
      exact l1
    subst hr
    constructor
    · simp only [Cluster.listUtxos, hrec]
    · intro n hn
      have h2 := l2 n hn
      rw [hrec] at h2
      simp only [Cluster.listUtxos, hrec]
      exact h2
  · intro pre bad post e cs flags hsplit hok hbad hfetch
    have h1 := utxosLoop_err now (asUsize c.utxoExpSec) pre bad post cache flags e cs
      (by rw [← hsplit]; exact keyNodup) hok hbad hfetch
    rcases hrec : utxosLoop now (asUsize c.utxoExpSec) (pre ++ bad :: post) cache flags
      with ⟨r, c2, cs2⟩
    have hr : r = .err e := by
      rw [hrec] at h1
      exact h1
    subst hr
    simp only [Cluster.listUtxos, hsplit, hrec]

/-- UTXO fixtures: node a is already cached with two entries, node b
fetches one entry successfully. -/
def utxoA1 : ClusterUtxo := { pubkey := "a", address := "addr1", amount := 10, confirmations := 1 }

def utxoA2 : ClusterUtxo := { pubkey := "a", address := "addr2", amount := 20, confirmations := 3 }

def utxoB1raw : Utxo :=
  { address := "addr3", amount_sat := "5", confirmations := "2"
    outpoint := { txid_bytes := "", txid_str := "", output_index := 0 }, pk_script := "" }

def utxoB1 : ClusterUtxo := { pubkey := "b", address := "addr3", amount := 5, confirmations := 2 }

def nodeA : Node := mkNode "a" (.lnd failClient)

def nodeB : Node := mkNode "b" (.lnd (unspentClient ⟨[utxoB1raw]⟩))

def clusterAB : Cluster :=
  { nodes := [nodeA, nodeB], invExpSec := 60, addrExpSec := 60, utxoExpSec := 60 }

def cacheA : Cache := [("utxos:a", .utxos ⟨[utxoA1, utxoA2]⟩, 100)]

/-- Witness for C8: the aggregate of a cached node and a fetched node,
with the fetched node cached afterwards; and the aggregate over a
failing uncached node fails with its upstream error. -/
theorem claim_C8_witness :
    (Cluster.listUtxos clusterAB cacheA 0 none []).1
        = .ok ⟨(clusterAB.nodes.map (nodeSet cacheA 0)).flatten⟩
    ∧ cacheLive (Cluster.listUtxos clusterAB cacheA 0 none []).2.1 0 (utxoKey nodeB)
        = some (.utxos ⟨nodeSet cacheA 0 nodeB⟩)
    ∧ (Cluster.listUtxos clusterFail [] 0 none []).1 = .err (.upstream "connection refused") := by
  have hok : ∀ n ∈ clusterAB.nodes, stepOk cacheA 0 n := by
    intro n hn
    rcases List.mem_cons.mp hn with rfl | hn2
    · exact Or.inl ⟨⟨[utxoA1, utxoA2]⟩, rfl⟩
    · rcases List.mem_cons.mp hn2 with rfl | hn3
      · exact Or.inr ⟨rfl, ⟨[utxoB1]⟩, [.listUnspentCall "b"], rfl⟩
      · cases hn3
  have hmain := claim_C8_list_utxos_aggregate clusterAB cacheA 0 (by decide) (by decide)
  refine ⟨(hmain.1 hok).1, (hmain.1 hok).2 nodeB (by simp [clusterAB]), ?_⟩
  exact (claim_C8_list_utxos_aggregate clusterFail [] 0 (by decide) (by decide)).2
    [] (mkNode "n1" (.lnd failClient)) [] (.upstream "connection refused")
    [.listUnspentCall "n1"] [] rfl (by intro n hn; cases hn) rfl rfl

/-! ## Claim C9 -/

/-- Miss-then-fetch-panic step of the aggregate loop. -/
theorem utxosLoop_cons_miss_panics (now ttl : Nat) (n : Node) (rest : List Node) (cache : Cache)
    (flags : List Bool) (m : String) (cs : List BCall)
    (hm : cacheLive cache now (utxoKey n) = none)
    (hf : n.listUtxos = (.panics m, cs)) :
    utxosLoop now ttl (n :: rest) cache flags = (.panics m, cache, cs) := by
  simp only [utxosLoop, hm, hf]

/-- The outcome and call log of the aggregate loop depend on the cache
only through the node keys, and not on the write-success flags. -/
theorem utxosLoop_flags (now ttl : Nat) :
    ∀ (nodes : List Node) (c1 c2 : Cache) (fl1 fl2 : List Bool),
    (nodes.map utxoKey).Nodup →
    (∀ n ∈ nodes, cacheLive c1 now (utxoKey n) = cacheLive c2 now (utxoKey n)) →
    (utxosLoop now ttl nodes c1 fl1).1 = (utxosLoop now ttl nodes c2 fl2).1
    ∧ (utxosLoop now ttl nodes c1 fl1).2.2 = (utxosLoop now ttl nodes c2 fl2).2.2 := by
  intro nodes
  induction nodes with
  | nil => intro c1 c2 fl1 fl2 _ _; exact ⟨rfl, rfl⟩
  | cons n rest ih =>
    intro c1 c2 fl1 fl2 hnd hag
    rw [List.map_cons, List.nodup_cons] at hnd
    obtain ⟨hkn, hnd'⟩ := hnd
    have hagn := hag n (List.mem_cons_self _ _)
    have hagr : ∀ m ∈ rest, cacheLive c1 now (utxoKey m) = cacheLive c2 now (utxoKey m) :=
      fun m hm => hag m (List.mem_cons_of_mem _ hm)
    cases hv : cacheLive c1 now (utxoKey n) with
    | some val =>
      have hv2 : cacheLive c2 now (utxoKey n) = some val := by rw [← hagn, hv]
      cases val with
      | utxos u =>
        rw [utxosLoop_cons_hit now ttl n rest c1 fl1 u hv,
          utxosLoop_cons_hit now ttl n rest c2 fl2 u hv2]
        obtain ⟨ih1, ih2⟩ := ih c1 c2 fl1 fl2 hnd' hagr
        exact ⟨by show RunResult.map _ _ = RunResult.map _ _; rw [ih1], ih2⟩
      | inv v =>
        rw [show utxosLoop now ttl (n :: rest) c1 fl1 = (.panics invalidRedisMsg, c1, []) by
            simp only [utxosLoop, hv],
          show utxosLoop now ttl (n :: rest) c2 fl2 = (.panics invalidRedisMsg, c2, []) by
            simp only [utxosLoop, hv2]]
        exact ⟨rfl, rfl⟩
      | str s =>
        rw [show utxosLoop now ttl (n :: rest) c1 fl1 = (.panics invalidRedisMsg, c1, []) by
            simp only [utxosLoop, hv],
          show utxosLoop now ttl (n :: rest) c2 fl2 = (.panics invalidRedisMsg, c2, []) by
            simp only [utxosLoop, hv2]]
        exact ⟨rfl, rfl⟩
    | none =>
      have hv2 : cacheLive c2 now (utxoKey n) = none := by rw [← hagn, hv]
      rcases hl : n.listUtxos with ⟨r, cs0⟩
      cases r with
      | ok u =>
        rw [utxosLoop_cons_miss_ok now ttl n rest c1 fl1 u cs0 hv hl,
          utxosLoop_cons_miss_ok now ttl n rest c2 fl2 u cs0 hv2 hl]
        have hagr2 : ∀ m ∈ rest,
            cacheLive (if (takeFlag fl1).1 then
                cacheSet c1 (utxoKey n) (.utxos u) (now + ttl) else c1) now (utxoKey m)
              = cacheLive (if (takeFlag fl2).1 then
                cacheSet c2 (utxoKey n) (.utxos u) (now + ttl) else c2) now (utxoKey m) := by
          intro m hm
          have hne : utxoKey m ≠ utxoKey n := by
            intro hh
            exact hkn (hh ▸ List.mem_map_of_mem utxoKey hm)
          rw [cacheLive_if_set_agree c1 now (now + ttl) (utxoKey n) (utxoKey m) (.utxos u)
              (takeFlag fl1).1 hne,
            cacheLive_if_set_agree c2 now (now + ttl) (utxoKey n) (utxoKey m) (.utxos u)
              (takeFlag fl2).1 hne]
          exact hagr m hm
        obtain ⟨ih1, ih2⟩ := ih
          (if (takeFlag fl1).1 then cacheSet c1 (utxoKey n) (.utxos u) (now + ttl) else c1)
          (if (takeFlag fl2).1 then cacheSet c2 (utxoKey n) (.utxos u) (now + ttl) else c2)
          (takeFlag fl1).2 (takeFlag fl2).2 hnd' hagr2
        constructor
        · show RunResult.map _ _ = RunResult.map _ _
          rw [ih1]
        · show cs0 ++ _ = cs0 ++ _
          rw [ih2]
      | err e =>
        rw [utxosLoop_cons_miss_err now ttl n rest c1 fl1 e cs0 hv hl,
          utxosLoop_cons_miss_err now ttl n rest c2 fl2 e cs0 hv2 hl]
        exact ⟨rfl, rfl⟩
      | panics m =>
        rw [utxosLoop_cons_miss_panics now ttl n rest c1 fl1 m cs0 hv hl,
          utxosLoop_cons_miss_panics now ttl n rest c2 fl2 m cs0 hv2 hl]
        exact ⟨rfl, rfl⟩

/-- C9: a failure of the ignored cache write is invisible to the
caller: the outcome and the backend call log of lookup_invoice,
next_address and list_utxos (the aggregate mode under the cluster
invariant of distinct node pubkeys) are identical whatever the
write-success flags, so the fresh value is still returned. -/
theorem claim_C9_cache_write_failure_discarded :
    (∀ (c : Cluster) (cache : Cache) (now : Nat) (h : String) (pk : Option String)
        (s1 s2 : Bool),
        (Cluster.lookupInvoice c cache now h pk s1).1
            = (Cluster.lookupInvoice c cache now h pk s2).1
        ∧ (Cluster.lookupInvoice c cache now h pk s1).2.2
            = (Cluster.lookupInvoice c cache now h pk s2).2.2)
    ∧ (∀ (c : Cluster) (cache : Cache) (now : Nat) (pk : Option String) (idx : Nat)
        (s1 s2 : Bool),
        (Cluster.nextAddress c cache now pk idx s1).1
            = (Cluster.nextAddress c cache now pk idx s2).1
        ∧ (Cluster.nextAddress c cache now pk idx s1).2.2
            = (Cluster.nextAddress c cache now pk idx s2).2.2)
    ∧ (∀ (c : Cluster) (cache : Cache) (now : Nat) (p : String) (fl1 fl2 : List Bool),
        (Cluster.listUtxos c cache now (some p) fl1).1
            = (Cluster.listUtxos c cache now (some p) fl2).1
        ∧ (Cluster.listUtxos c cache now (some p) fl1).2.2
            = (Cluster.listUtxos c cache now (some p) fl2).2.2)
    ∧ (∀ (c : Cluster) (cache : Cache) (now : Nat) (fl1 fl2 : List Bool),
        (c.nodes.map (fun n => n.pubkey)).Nodup →
        (Cluster.listUtxos c cache now none fl1).1
            = (Cluster.listUtxos c cache now none fl2).1
        ∧ (Cluster.listUtxos c cache now none fl1).2.2
            = (Cluster.listUtxos c cache now none fl2).2.2) := by
  refine ⟨?_, ?_, ?_, ?_⟩
  · intro c cache now h pk s1 s2
    exact lookup_agree c cache cache now h pk s1 s2 rfl
  · intro c cache now pk idx s1 s2
    cases pk with
    | some p =>
      cases hf : List.find? (fun n => n.pubkey == p) c.nodes with
      | none =>
        rw [show Cluster.nextAddress c cache now (some p) idx s1
              = (.panics unwrapNoneMsg, cache, []) by
            simp only [Cluster.nextAddress, hf],
          show Cluster.nextAddress c cache now (some p) idx s2
              = (.panics unwrapNoneMsg, cache, []) by
            simp only [Cluster.nextAddress, hf]]
        exact ⟨rfl, rfl⟩
      | some node =>
        rcases hn : node.nextAddress with ⟨r, cs0⟩
        cases r with
        | ok addr =>
          rw [show Cluster.nextAddress c cache now (some p) idx s1
                = (.ok addr,
                    if s1 then
                      cacheSet cache addr (.str node.pubkey) (now + asUsize c.addrExpSec)
                    else cache, cs0) by
              simp only [Cluster.nextAddress, hf, hn],
            show Cluster.nextAddress c cache now (some p) idx s2
                = (.ok addr,
                    if s2 then
                      cacheSet cache addr (.str node.pubkey) (now + asUsize c.addrExpSec)
                    else cache, cs0) by
              simp only [Cluster.nextAddress, hf, hn]]
          exact ⟨rfl, rfl⟩
        | err e =>
          rw [show Cluster.nextAddress c cache now (some p) idx s1 = (.err e, cache, cs0) by
              simp only [Cluster.nextAddress, hf, hn],
            show Cluster.nextAddress c cache now (some p) idx s2 = (.err e, cache, cs0) by
              simp only [Cluster.nextAddress, hf, hn]]
          exact ⟨rfl, rfl⟩
        | panics m =>
          rw [show Cluster.nextAddress c cache now (some p) idx s1 = (.panics m, cache, cs0) by
              simp only [Cluster.nextAddress, hf, hn],
            show Cluster.nextAddress c cache now (some p) idx s2 = (.panics m, cache, cs0) by
              simp only [Cluster.nextAddress, hf, hn]]
          exact ⟨rfl, rfl⟩
    | none =>
      cases hch : chooseIdx c.nodes idx with
      | none =>
        rw [show Cluster.nextAddress c cache now none idx s1
              = (.panics unwrapNoneMsg, cache, []) by
            simp only [Cluster.nextAddress, hch],
          show Cluster.nextAddress c cache now none idx s2
              = (.panics unwrapNoneMsg, cache, []) by
            simp only [Cluster.nextAddress, hch]]
        exact ⟨rfl, rfl⟩
      | some node =>
        rcases hn : node.nextAddress with ⟨r, cs0⟩
        cases r with
        | ok addr =>
          rw [show Cluster.nextAddress c cache now none idx s1
                = (.ok addr,
                    if s1 then
                      cacheSet cache addr (.str node.pubkey) (now + asUsize c.addrExpSec)
                    else cache, cs0) by
              simp only [Cluster.nextAddress, hch, hn],
            show Cluster.nextAddress c cache now none idx s2
                = (.ok addr,
                    if s2 then
                      cacheSet cache addr (.str node.pubkey) (now + asUsize c.addrExpSec)
                    else cache, cs0) by
              simp only [Cluster.nextAddress, hch, hn]]
          exact ⟨rfl, rfl⟩
        | err e =>
          rw [show Cluster.nextAddress c cache now none idx s1 = (.err e, cache, cs0) by
              simp only [Cluster.nextAddress, hch, hn],
            show Cluster.nextAddress c cache now none idx s2 = (.err e, cache, cs0) by
              simp only [Cluster.nextAddress, hch, hn]]
          exact ⟨rfl, rfl⟩
        | panics m =>
          rw [show Cluster.nextAddress c cache now none idx s1 = (.panics m, cache, cs0) by
              simp only [Cluster.nextAddress, hch, hn],
            show Cluster.nextAddress c cache now none idx s2 = (.panics m, cache, cs0) by
              simp only [Cluster.nextAddress, hch, hn]]
          exact ⟨rfl, rfl⟩
  · intro c cache now p fl1 fl2
    cases hf : List.find? (fun n => n.pubkey == p) c.nodes with
    | none =>
      rw [show Cluster.listUtxos c cache now (some p) fl1
            = (.err (.anyhowMsg nodeNotFoundMsg), cache, []) by
          simp only [Cluster.listUtxos, hf],
        show Cluster.listUtxos c cache now (some p) fl2
            = (.err (.anyhowMsg nodeNotFoundMsg), cache, []) by
          simp only [Cluster.listUtxos, hf]]
      exact ⟨rfl, rfl⟩
    | some node =>
      cases hv : cacheLive cache now (utxoKey node) with
      | some val =>
        cases val with
        | utxos u =>
          rw [show Cluster.listUtxos c cache now (some p) fl1 = (.ok u, cache, []) by
              simp only [Cluster.listUtxos, hf, hv],
            show Cluster.listUtxos c cache now (some p) fl2 = (.ok u, cache, []) by
              simp only [Cluster.listUtxos, hf, hv]]
          exact ⟨rfl, rfl⟩
        | inv v =>
          rw [show Cluster.listUtxos c cache now (some p) fl1
                = (.panics invalidRedisMsg, cache, []) by
              simp only [Cluster.listUtxos, hf, hv],
            show Cluster.listUtxos c cache now (some p) fl2
                = (.panics invalidRedisMsg, cache, []) by
              simp only [Cluster.listUtxos, hf, hv]]
          exact ⟨rfl, rfl⟩
        | str s =>
          rw [show Cluster.listUtxos c cache now (some p) fl1
                = (.panics invalidRedisMsg, cache, []) by
              simp only [Cluster.listUtxos, hf, hv],
            show Cluster.listUtxos c cache now (some p) fl2
                = (.panics invalidRedisMsg, cache, []) by
              simp only [Cluster.listUtxos, hf, hv]]
          exact ⟨rfl, rfl⟩
      | none =>
        rcases hn : node.listUtxos with ⟨r, cs0⟩
        cases r with
        | ok u =>
          rw [show Cluster.listUtxos c cache now (some p) fl1
                = (.ok u,
                    if (takeFlag fl1).1 then
                      cacheSet cache (utxoKey node) (.utxos u) (now + asUsize c.utxoExpSec)
                    else cache, cs0) by
              simp only [Cluster.listUtxos, hf, hv, hn],
            show Cluster.listUtxos c cache now (some p) fl2
                = (.ok u,
                    if (takeFlag fl2).1 then
                      cacheSet cache (utxoKey node) (.utxos u) (now + asUsize c.utxoExpSec)
                    else cache, cs0) by
              simp only [Cluster.listUtxos, hf, hv, hn]]
          exact ⟨rfl, rfl⟩
        | err e =>
          rw [show Cluster.listUtxos c cache now (some p) fl1 = (.err e, cache, cs0) by
              simp only [Cluster.listUtxos, hf, hv, hn],
            show Cluster.listUtxos c cache now (some p) fl2 = (.err e, cache, cs0) by
              simp only [Cluster.listUtxos, hf, hv, hn]]
          exact ⟨rfl, rfl⟩
        | panics m =>
          rw [show Cluster.listUtxos c cache now (some p) fl1 = (.panics m, cache, cs0) by
              simp only [Cluster.listUtxos, hf, hv, hn],
            show Cluster.listUtxos c cache now (some p) fl2 = (.panics m, cache, cs0) by
              simp only [Cluster.listUtxos, hf, hv, hn]]
          exact ⟨rfl, rfl⟩
  · intro c cache now fl1 fl2 hnodup
    have keyNodup := utxoKey_nodup c.nodes hnodup
    obtain ⟨hl1, hl2⟩ := utxosLoop_flags now (asUsize c.utxoExpSec) c.nodes cache cache fl1 fl2
      keyNodup (fun n _ => rfl)
    rcases hr1 : utxosLoop now (asUsize c.utxoExpSec) c.nodes cache fl1 with ⟨r1, ca1, cx1⟩
    rcases hr2 : utxosLoop now (asUsize c.utxoExpSec) c.nodes cache fl2 with ⟨r2, ca2, cx2⟩
    rw [hr1, hr2] at hl1 hl2
    have hr : r1 = r2 := hl1
    have hcx : cx1 = cx2 := hl2
    subst hr
    subst hcx
    cases r1 with
    | ok l =>
      rw [show Cluster.listUtxos c cache now none fl1 = (.ok ⟨l⟩, ca1, cx1) by
          simp only [Cluster.listUtxos, hr1],
        show Cluster.listUtxos c cache now none fl2 = (.ok ⟨l⟩, ca2, cx1) by
          simp only [Cluster.listUtxos, hr2]]
      exact ⟨rfl, rfl⟩
    | err e =>
      rw [show Cluster.listUtxos c cache now none fl1 = (.err e, ca1, cx1) by
          simp only [Cluster.listUtxos, hr1],
        show Cluster.listUtxos c cache now none fl2 = (.err e, ca2, cx1) by
          simp only [Cluster.listUtxos, hr2]]
      exact ⟨rfl, rfl⟩
    | panics m =>
      rw [show Cluster.listUtxos c cache now none fl1 = (.panics m, ca1, cx1) by
          simp only [Cluster.listUtxos, hr1],
        show Cluster.listUtxos c cache now none fl2 = (.panics m, ca2, cx1) by
          simp only [Cluster.listUtxos, hr2]]
      exact ⟨rfl, rfl⟩

/-- Witness for C9 at concrete clusters: the outcomes with a succeeding
and a failing cache write coincide. -/
theorem claim_C9_witness :
    ((Cluster.lookupInvoice clusterB64 [] 0 "AAAA" none true).1
        = (Cluster.lookupInvoice clusterB64 [] 0 "AAAA" none false).1
      ∧ (Cluster.lookupInvoice clusterB64 [] 0 "AAAA" none true).2.2
        = (Cluster.lookupInvoice clusterB64 [] 0 "AAAA" none false).2.2)
    ∧ ((Cluster.nextAddress clusterB64 [] 0 (some "n1") 0 true).1
        = (Cluster.nextAddress clusterB64 [] 0 (some "n1") 0 false).1
      ∧ (Cluster.nextAddress clusterB64 [] 0 (some "n1") 0 true).2.2
        = (Cluster.nextAddress clusterB64 [] 0 (some "n1") 0 false).2.2)
    ∧ ((Cluster.listUtxos clusterAB cacheA 0 (some "b") [true]).1
        = (Cluster.listUtxos clusterAB cacheA 0 (some "b") [false]).1
      ∧ (Cluster.listUtxos clusterAB cacheA 0 (some "b") [true]).2.2
        = (Cluster.listUtxos clusterAB cacheA 0 (some "b") [false]).2.2)
    ∧ ((Cluster.listUtxos clusterAB cacheA 0 none [true]).1
        = (Cluster.listUtxos clusterAB cacheA 0 none [false]).1
      ∧ (Cluster.listUtxos clusterAB cacheA 0 none [true]).2.2
        = (Cluster.listUtxos clusterAB cacheA 0 none [false]).2.2) :=
  ⟨claim_C9_cache_write_failure_discarded.1 clusterB64 [] 0 "AAAA" none true false,
   claim_C9_cache_write_failure_discarded.2.1 clusterB64 [] 0 (some "n1") 0 true false,
   claim_C9_cache_write_failure_discarded.2.2.1 clusterAB cacheA 0 "b" [true] [false],
   claim_C9_cache_write_failure_discarded.2.2.2 clusterAB cacheA 0 [true] [false] (by decide)⟩

end LClust
